import Mathlib

/-
Verification development for the open-hamclock-backend propagation model.

The Python sources are shallowly embedded over the reals:
* float arithmetic is modelled by exact real arithmetic (`ℝ`),
* Python `math.sqrt` / `** 0.5` on nonnegative arguments by `Real.sqrt`,
* `math.log10` by `Real.logb 10`, `math.atan2` by an explicit `atan2`,
* Python dict fields that may be absent or `None` by `Option ℝ`,
* Python truthiness of an optional float (`if d.get(k):`) by `truthy`,
* Python `%` on floats (positive modulus) by `pyMod`,
* network / filesystem reads by explicit parameters (station list,
  space-weather values, current hour, fetch outcome).
-/

namespace OHB

noncomputable section

/-- Python truthiness of an optional float: `None` and `0.0` are falsy. -/
def truthy (o : Option ℝ) : Bool :=
  match o with
  | none => false
  | some v => if v = 0 then false else true

/-- Python float `%` with a positive right operand: `x % m = x - m*floor(x/m)`. -/
def pyMod (x m : ℝ) : ℝ := x - m * (⌊x / m⌋ : ℤ)

/-- `math.radians`. -/
def radians (x : ℝ) : ℝ := x * (Real.pi / 180)

/-- `math.atan2` semantics on the reals. -/
def atan2 (y x : ℝ) : ℝ :=
  if 0 < x then Real.arctan (y / x)
  else if x < 0 then
    (if 0 ≤ y then Real.arctan (y / x) + Real.pi else Real.arctan (y / x) - Real.pi)
  else (if 0 < y then Real.pi / 2 else if y < 0 then -(Real.pi / 2) else 0)

/-- `min(99.0, max(0.0, r))`, the final clip of the reliability model
(also `np.clip(rel, 0.0, 99.0)` in the grid renderer). -/
def clip99 (x : ℝ) : ℝ := min 99 (max 0 x)

/-!  ## IonosondeStore data model (ionosonde_service.py)  -/

/-- A validated station record as built by `fetch_ionosonde_data`
(ionosonde_service.py lines 67-78). -/
structure Station where
  code : String
  name : String
  lat : ℝ
  lon : ℝ
  foF2 : ℝ
  mufd : Option ℝ
  hmF2 : Option ℝ
  md : ℝ
  confidence : ℝ
  time : ℝ

/-- `haversine_distance` (ionosonde_service.py lines 94-101). -/
def haversine_distance (lat1 lon1 lat2 lon2 : ℝ) : ℝ :=
  let dlat := radians (lat2 - lat1)
  let dlon := radians (lon2 - lon1)
  let a := Real.sin (dlat / 2) ^ 2 +
    Real.cos (radians lat1) * Real.cos (radians lat2) * Real.sin (dlon / 2) ^ 2
  let c := 2 * atan2 (Real.sqrt a) (Real.sqrt (1 - a))
  6371 * c

/-- Pair every station with its distance to the query point
(`stations_with_dist`, ionosonde_service.py lines 115-118). -/
def withDist (lat lon : ℝ) (ss : List Station) : List (Station × ℝ) :=
  ss.map fun s => (s, haversine_distance lat lon s.lat s.lon)

/-- One step of a stable ascending insertion sort on the distance key. -/
def insertByDist (p : Station × ℝ) : List (Station × ℝ) → List (Station × ℝ)
  | [] => [p]
  | q :: t => if p.2 < q.2 then p :: q :: t else q :: insertByDist p t

/-- `stations_with_dist.sort(key=dist)`: Python's sort is stable ascending,
which an insertion sort on the distance key reproduces exactly. -/
def sortByDist (l : List (Station × ℝ)) : List (Station × ℝ) := l.foldr insertByDist []

/-- `[s for s in stations_with_dist if s['dist'] <= MAX_VALID_DISTANCE_KM][:5]`
(ionosonde_service.py line 134). -/
def neighborsOf (lat lon : ℝ) (ss : List Station) : List (Station × ℝ) :=
  ((sortByDist (withDist lat lon ss)).filter fun p => decide (p.2 ≤ 3000)).take 5

/-- IDW weight of a neighbor: `(confidence/100) / max(1, dist)**2`
(ionosonde_service.py line 163 and line 214). -/
def wOf (p : Station × ℝ) : ℝ := (p.1.confidence / 100) / (max 1 p.2) ^ 2

/-- `sum_weights` of the first accumulation loop (every neighbor contributes),
(ionosonde_service.py lines 150-165). -/
def sumWeights (ns : List (Station × ℝ)) : ℝ := (ns.map wOf).sum

/-- `weighted_avg(key)` (ionosonde_service.py lines 209-217): only neighbors
whose value for the field is truthy contribute to numerator and denominator. -/
def weightedAvg (f : Station → Option ℝ) (ns : List (Station × ℝ)) : Option ℝ :=
  let wSum := (ns.map fun p => if truthy (f p.1) then wOf p else 0).sum
  let vSum := (ns.map fun p => if truthy (f p.1) then (f p.1).getD 0 * wOf p else 0).sum
  if 0 < wSum then some (vSum / wSum) else none

/-- Field access `s.get('foF2')`: always present on a station record. -/
def fFoF2 (s : Station) : Option ℝ := some s.foF2

/-- Field access `s.get('mufd')`. -/
def fMufd (s : Station) : Option ℝ := s.mufd

/-- Field access `s.get('hmF2')`. -/
def fHmF2 (s : Station) : Option ℝ := s.hmF2

/-- Field access `s.get('md')`: always present on a station record. -/
def fMd (s : Station) : Option ℝ := some s.md

/-- `weighted_avg('md') or 3.0` (ionosonde_service.py line 222): Python `or`
replaces both `None` and `0.0` by the default. -/
def mdDefault (o : Option ℝ) : ℝ :=
  match o with
  | none => 3
  | some v => if v = 0 then 3 else v

/-- Result of `interpolate_fof2`, one constructor per `method` tag. -/
inductive InterpResult where
  | noCoverage (nearestStation : String) (nearestDistance : ℝ)
  | direct (foF2 : ℝ) (mufd : Option ℝ) (hmF2 : Option ℝ) (md : ℝ)
      (nearestStation : String) (nearestDistance : ℝ)
  | interpolated (stationsUsed : ℕ) (nearestStation : String) (nearestDistance : ℝ)
      (foF2 : Option ℝ) (mufd : Option ℝ) (hmF2 : Option ℝ) (md : ℝ)

/-- Core of `interpolate_fof2` after the distances are computed and sorted:
first argument is the sorted station/distance list, second the selected
neighbor list (ionosonde_service.py lines 111-224). -/
def interpGo : List (Station × ℝ) → List (Station × ℝ) → Option InterpResult
  | [], _ => none
  | nearest :: _, neighbors =>
    if 3000 < nearest.2 then some (.noCoverage nearest.1.name nearest.2)
    else
      match neighbors with
      | [] => none
      | n0 :: ns =>
        if n0.2 < 50 then
          some (.direct n0.1.foF2 n0.1.mufd n0.1.hmF2 n0.1.md n0.1.name n0.2)
        else if sumWeights (n0 :: ns) = 0 then none
        else some (.interpolated (n0 :: ns).length nearest.1.name nearest.2
          (weightedAvg fFoF2 (n0 :: ns)) (weightedAvg fMufd (n0 :: ns))
          (weightedAvg fHmF2 (n0 :: ns)) (mdDefault (weightedAvg fMd (n0 :: ns))))

/-- `interpolate_fof2(lat, lon, stations)` (ionosonde_service.py lines 103-224).
An empty station list yields `none` (the sorted list is then empty). -/
def interpolate_fof2 (lat lon : ℝ) (stations : List Station) : Option InterpResult :=
  interpGo (sortByDist (withDist lat lon stations)) (neighborsOf lat lon stations)

/-- Spec-side inverse-distance-weighted average of a field, written from the
specification: exactly the neighbors on which the field is present contribute
their weight to numerator and denominator. -/
def specIDW (f : Station → Option ℝ) (ns : List (Station × ℝ)) : Option ℝ :=
  let rs := ns.filter fun p => (f p.1).isSome
  if rs.isEmpty then none
  else some (((rs.map fun p => (f p.1).getD 0 * wOf p).sum) / ((rs.map wOf).sum))

/-!  ## PropagationModel (voacap_service.py)  -/

/-- The optional-field view of the dict handed to `calculate_muf` and
`calculate_enhanced_reliability` (an `interpolate_fof2` result). -/
structure IonoData where
  foF2 : Option ℝ
  mufd : Option ℝ
  hmF2 : Option ℝ
  md : Option ℝ

/-- `hour_factor` of the solar fallback (voacap_service.py line 287). -/
def hour_factor (h : ℝ) : ℝ := 1 + 0.4 * Real.cos ((h - 14) * Real.pi / 12)

/-- `lat_factor` of the solar fallback (voacap_service.py line 288). -/
def lat_factor (mlat : ℝ) : ℝ := 1 - |mlat| / 150

/-- The solar-model fallback `foF2_est * M` (voacap_service.py lines 286-292). -/
def solar_muf3000 (mlat h ssn : ℝ) : ℝ :=
  0.9 * Real.sqrt (ssn + 15) * hour_factor h * lat_factor mlat * 3

/-- Sub-3000 km branch of the MUF(3000) → MUF(distance) conversion
(voacap_service.py lines 281-282). -/
def mufDistLow (m d : ℝ) : ℝ := m * Real.sqrt (d / 3000)

/-- The 3000-km-and-above branch of the MUF(3000) → MUF(distance) conversion
(voacap_service.py lines 283-284). -/
def mufDistHigh (m d : ℝ) : ℝ := m * (1 + 0.15 * Real.logb 10 (d / 3000))

/-- `calculate_muf` (voacap_service.py lines 266-297): prefer a truthy `mufd`,
then truthy `foF2` times `md` (default 3.0), then the solar fallback; a zero
`muf3000` is falsy in Python and also falls back to the solar model. -/
def calculate_muf (dist mlat mlon hour sfi ssn : ℝ) (iono : Option IonoData) : ℝ :=
  let muf3000opt : Option ℝ :=
    match iono with
    | none => none
    | some d =>
      if truthy d.mufd then d.mufd
      else if truthy d.foF2 then some (d.foF2.getD 0 * d.md.getD 3)
      else none
  let solar := solar_muf3000 mlat hour ssn
  let muf3000 :=
    match muf3000opt with
    | some m => if m = 0 then solar else m
    | none => solar
  if dist < 3000 then mufDistLow muf3000 dist else mufDistHigh muf3000 dist

end

noncomputable section

/-- `calculate_luf` (voacap_service.py lines 299-317).  Python `** 0.5` on the
nonnegative `max(0.1, cos(zenith))` is `Real.sqrt`. -/
def calculate_luf (dist mlat hour sfi k : ℝ) : ℝ :=
  let base := 2 * Real.sqrt (dist / 1000) * Real.sqrt sfi *
    Real.sqrt (max 0.1 (Real.cos (radians (|hour - 12| * 15)))) * (1 + k * 0.1) / 10
  let b2 := if hour < 6 ∨ 18 < hour then base * 0.3 else base
  max 1 b2

/-- `calculate_luf_vec` (muf_map.py lines 203-214): the same formula as
`calculate_luf`, written out separately in the grid renderer. -/
def calculate_luf_vec (dist mlat hour sfi k : ℝ) : ℝ :=
  let base := 2 * Real.sqrt (dist / 1000) * Real.sqrt sfi *
    Real.sqrt (max 0.1 (Real.cos (radians (|hour - 12| * 15)))) * (1 + k * 0.1) / 10
  let b2 := if hour < 6 ∨ 18 < hour then base * 0.3 else base
  max 1 b2

/-- Zone 1 formula, freq above 1.1·eff_muf (voacap_service.py line 342). -/
def zone1 (freq em : ℝ) : ℝ := max 0 (30 - (freq - em) * 5)

/-- Zone 2 formula, eff_muf < freq ≤ 1.1·eff_muf (voacap_service.py line 344). -/
def zone2 (freq em : ℝ) : ℝ := 30 + (em * 1.1 - freq) / (em * 0.1) * 20

/-- Zone 3 formula, freq below 0.8·eff_luf (voacap_service.py line 346). -/
def zone3 (freq el : ℝ) : ℝ := max 0 (20 - (el - freq) * 10)

/-- Zone 4 formula, 0.8·eff_luf ≤ freq < eff_luf (voacap_service.py line 348). -/
def zone4 (freq el : ℝ) : ℝ := 20 + (freq - el * 0.8) / (el * 0.2) * 30

/-- Zone 5, the usable window (voacap_service.py lines 350-362): degenerate
range gives 30, otherwise the curve peaks at position 0.75. -/
def zone5 (freq em el : ℝ) : ℝ :=
  if em - el ≤ 0 then 30
  else if (freq - el) / (em - el) < 0.75 then 50 + ((freq - el) / (em - el)) / 0.75 * 45
  else 95 - ((freq - el) / (em - el) - 0.75) / (1 - 0.75) * 45

/-- The five-zone base reliability of `calculate_enhanced_reliability`
(voacap_service.py lines 339-362). -/
def zoneBaseEnh (freq em el : ℝ) : ℝ :=
  if em * 1.1 < freq then zone1 freq em
  else if em < freq then zone2 freq em
  else if freq < el * 0.8 then zone3 freq el
  else if freq < el then zone4 freq el
  else zone5 freq em el

/-- Kp storm penalty factor (voacap_service.py lines 364-368; the disjoint
band conditions of muf_map.py lines 269-275 compute the same factor). -/
def kFactor (k : ℝ) : ℝ :=
  if 7 ≤ k then 0.1
  else if 6 ≤ k then 0.2
  else if 5 ≤ k then 0.4
  else if 4 ≤ k then 0.6
  else if 3 ≤ k then 0.8
  else 1

/-- The hour-scaling of ionosonde data inside `calculate_enhanced_reliability`
(voacap_service.py lines 323-331): when the forecast hour differs from the
current hour, foF2 and mufd of a copy are scaled by
target_hour_factor / current_hour_factor. -/
def hourIonoData (iono : Option IonoData) (hour currentHour : ℝ) : Option IonoData :=
  match iono with
  | none => none
  | some d =>
    if hour ≠ currentHour then
      some { foF2 := d.foF2.map (· * (hour_factor hour / hour_factor currentHour)),
             mufd := d.mufd.map (· * (hour_factor hour / hour_factor currentHour)),
             hmF2 := d.hmF2, md := d.md }
    else some d

/-- `calculate_enhanced_reliability` (voacap_service.py lines 319-387). -/
def calculate_enhanced_reliability (freq dist mlat mlon hour sfi ssn k : ℝ)
    (iono : Option IonoData) (currentHour marginDb : ℝ) : ℝ :=
  let hiono := hourIonoData iono hour currentHour
  let muf := calculate_muf dist mlat mlon hour sfi ssn hiono
  let luf := calculate_luf dist mlat hour sfi k
  let em := muf * (1 + marginDb * 0.012)
  let el := luf * max 0.1 (1 - marginDb * 0.008)
  let base := zoneBaseEnh freq em el
  let r1 := base * kFactor k
  let hops : ℤ := ⌈dist / 3500⌉
  let r2 := if 1 < hops then r1 * (0.92 : ℝ) ^ (hops - 1).toNat else r1
  let r3 := if 60 < |mlat| then (if 3 ≤ k then r2 * 0.7 * 0.7 else r2 * 0.7) else r2
  let r4 := if 21 ≤ freq ∧ sfi < 100 then r3 * Real.sqrt (sfi / 100) else r3
  let r5 := if 28 ≤ freq ∧ sfi < 120 then r4 * Real.sqrt (sfi / 120) else r4
  let r6 := if 50 ≤ freq ∧ sfi < 150 then r5 * (sfi / 150) ^ (1.5 : ℝ) else r5
  let lh := pyMod (hour + mlon / 15 + 24) 24
  let night := lh < 6 ∨ 18 < lh
  let r7 := if freq ≤ 7 ∧ night then r6 * 1.1 else r6
  let r8 := if freq ≤ 3.5 ∧ ¬night then r7 * 0.7 else r7
  clip99 r8

/-- Mode advantage table in dB (voacap_service.py lines 243-254). -/
def MODE_ADVANTAGE (m : String) : ℝ :=
  if m = "CW" then 16
  else if m = "FT8" then 12
  else if m = "FT4" then 10
  else if m = "JT65" then 15
  else if m = "WSPR" then 25
  else if m = "SSB" then 0
  else if m = "AM" then -6
  else if m = "FM" then -3
  else if m = "RTTY" then 5
  else if m = "PSK31" then 14
  else 0

/-- `calculate_signal_margin` (voacap_service.py lines 256-264). -/
def calculate_signal_margin (mode : String) (powerWatts : ℝ) : ℝ :=
  MODE_ADVANTAGE mode + 10 * Real.logb 10 (max 0.01 powerWatts / 100)

/-- The view of an `interpolate_fof2` result dict taken by `calculate_muf` and
the hour-scaling: a no-coverage dict is truthy but carries none of the four
fields; direct/interpolated dicts always carry an `md` value. -/
def interpToIono : Option InterpResult → Option IonoData
  | none => none
  | some (.noCoverage _ _) => some ⟨none, none, none, none⟩
  | some (.direct f2 mu hm md _ _) => some ⟨some f2, mu, hm, some md⟩
  | some (.interpolated _ _ _ f2 mu hm md) => some ⟨f2, mu, hm, some md⟩

/-- `calculate_point_propagation` (voacap_service.py lines 396-427).  The
space-weather read and the current UTC hour are passed in as parameters
(`kp`, `currentHour`); the function body hardcodes `sfi=150` in its calls. -/
def calculate_point_propagation (stations : List Station) (kp currentHour : ℝ)
    (txLat txLng rxLat rxLng mhz toa : ℝ) (year month : ℤ) (utc ssn : ℝ)
    (pathArg : ℤ) (mode : String) (power : ℝ) : ℝ × ℝ :=
  let dist := haversine_distance txLat txLng rxLat rxLng
  let midLat := (txLat + rxLat) / 2
  let midLon :=
    if 180 < |txLng - rxLng| then
      (let m := (txLng + rxLng + 360) / 2; if 180 < m then m - 360 else m)
    else (txLng + rxLng) / 2
  let iono := interpToIono (interpolate_fof2 midLat midLon stations)
  let margin := calculate_signal_margin mode power
  let rel := calculate_enhanced_reliability mhz dist midLat midLon utc 150 ssn kp
    iono currentHour margin
  let muf := calculate_muf dist midLat midLon utc 150 ssn iono
  (muf, rel / 100)

end

/-!  ## Ingestion and caching (ionosonde_service.py lines 12-92)  -/

noncomputable section

/-- The `station` sub-object of a raw KC2G feed record. -/
structure RawInfo where
  code : String
  name : String
  latitude : ℝ
  longitude : ℝ

/-- A raw feed record as consumed by `fetch_ionosonde_data`: optional fields
model absent keys / `None` / failed parses (`time` is the parsed timestamp,
`none` when `datetime.fromisoformat` raises). -/
structure RawStation where
  fof2 : Option ℝ
  station : Option RawInfo
  cs : ℝ
  time : Option ℝ
  mufd : Option ℝ
  hmf2 : Option ℝ
  md : Option ℝ

/-- Validation and construction of one station record
(ionosonde_service.py lines 43-79): drop the record unless foF2 and the
station identity are truthy, confidence is positive, the timestamp parses and
is within 24 h of now; normalize longitudes above 180. -/
def ingestOne (now : ℝ) (s : RawStation) : Option Station :=
  match s.fof2, s.station with
  | some f2, some info =>
    if f2 = 0 then none
    else if s.cs ≤ 0 then none
    else
      match s.time with
      | none => none
      | some ts =>
        if 86400 < |now - ts| then none
        else
          some { code := info.code, name := info.name, lat := info.latitude,
                 lon := if 180 < info.longitude then info.longitude - 360
                        else info.longitude,
                 foF2 := f2,
                 mufd := if truthy s.mufd then s.mufd else none,
                 hmF2 := if truthy s.hmf2 then s.hmf2 else none,
                 md := mdDefault s.md,
                 confidence := s.cs, time := ts }
  | _, _ => none

/-- The `valid_stations` list of a successful fetch. -/
def ingest (now : ℝ) (raws : List RawStation) : List Station :=
  raws.filterMap (ingestOne now)

/-- The module-level `_ionosonde_cache`. -/
structure IonoCache where
  data : List Station
  timestamp : ℝ

/-- Observable outcome of one `fetch_ionosonde_data` call: the returned list,
the cache state afterwards, and whether a fetch was attempted (the body of the
`try` block was entered). -/
structure FetchOut where
  result : List Station
  cache : IonoCache
  attempted : Bool

/-- One call of `fetch_ionosonde_data` (ionosonde_service.py lines 22-92) as a
state transition.  `outcome` is the network/parse result: `none` models any
exception inside the `try` block, `some raws` a successfully parsed response.
The cached list is returned without a fetch only when it is nonempty and
fresh; on failure the old data is kept and the timestamp is bumped to `now`. -/
def fetch_ionosonde_data (c : IonoCache) (now : ℝ)
    (outcome : Option (List RawStation)) : FetchOut :=
  if c.data.isEmpty = false ∧ now - c.timestamp < 600 then ⟨c.data, c, false⟩
  else
    match outcome with
    | some raws => ⟨ingest now raws, ⟨ingest now raws, now⟩, true⟩
    | none => ⟨c.data, ⟨c.data, now⟩, true⟩

/-- Renaming a station's non-positional fields, paired with a distance. -/
def mapG (g : Station → Station) (p : Station × ℝ) : Station × ℝ := (g p.1, p.2)

/-- A raw record that passes every ingestion filter. -/
def rawG : RawStation := ⟨some 5, some ⟨"G", "G", 40, 10⟩, 100, some 10, none, none, none⟩

/-- The station record `ingestOne` builds from `rawG` at now = 10. -/
def stG : Station := ⟨"G", "G", 40, 10, 5, none, none, 3, 100, 10⟩

/-- A raw record with longitude −190: valid for every filter, but the
normalization only subtracts 360 from longitudes above 180. -/
def raw190 : RawStation := ⟨some 5, some ⟨"N", "N", 40, -190⟩, 100, some 0, none, none, none⟩

/-- A field modification that keeps a station's position but replaces its
confidence and timestamp. -/
def gConfTime : Station → Station := fun s => { s with confidence := 1, time := 0 }

/-- A station on the Greenwich meridian at latitude 10°, about 1112 km from
the origin query point. -/
def stA : Station := ⟨"A", "A", 10, 0, 8, some 30, none, 3, 100, 0⟩

end

/-!  ## GridRenderer scalar physics (muf_map.py lines 173-307)  -/

noncomputable section

/-- `calculate_muf_vec` (muf_map.py lines 173-197), scalar semantics: a NaN
`mufd` cell is `none`; selection tests are `mufd > 0` and `foF2 > 0`, and the
distance conversion clamps at 1 km (below 3000 km) resp. 3000 km. -/
def calculate_muf_vec (dist mlat mlon hour sfi ssn f0 : ℝ) (m0 : Option ℝ)
    (md0 : ℝ) : ℝ :=
  let solar := solar_muf3000 mlat hour ssn
  let muf3000 :=
    match m0 with
    | some m => if 0 < m then m else (if 0 < f0 then f0 * md0 else solar)
    | none => if 0 < f0 then f0 * md0 else solar
  if dist < 3000 then muf3000 * Real.sqrt (max dist 1 / 3000)
  else muf3000 * (1 + 0.15 * Real.logb 10 (max dist 3000 / 3000))

/-- Zone 5 of the grid renderer (muf_map.py lines 256-266): the window range
is clamped at 0.001 and the degenerate case is `em − el ≤ 0.001`. -/
def zone5vec (freq em el : ℝ) : ℝ :=
  if em - el ≤ 0.001 then 30
  else if (freq - el) / max 0.001 (em - el) < 0.75 then
    50 + ((freq - el) / max 0.001 (em - el)) / 0.75 * 45
  else 95 - ((freq - el) / max 0.001 (em - el) - 0.75) / (1 - 0.75) * 45

/-- The five-zone base reliability of `calculate_reliability_vec`
(muf_map.py lines 232-266). -/
def zoneBaseVec (freq em el : ℝ) : ℝ :=
  if em * 1.1 < freq then zone1 freq em
  else if em < freq then zone2 freq em
  else if freq < el * 0.8 then zone3 freq el
  else if freq < el then zone4 freq el
  else zone5vec freq em el

/-- The single-path hop penalty factor (voacap_service.py lines 370-372):
0.92^(hops−1) for hops = ceil(dist/3500) when hops > 1. -/
def stepHop (dist : ℝ) : ℝ :=
  if 1 < (⌈dist / 3500⌉ : ℤ) then (0.92 : ℝ) ^ ((⌈dist / 3500⌉ : ℤ) - 1).toNat
  else 1

/-- The grid renderer's continuous hop penalty factor (muf_map.py lines
277-280): 0.92^max(0, (dist−500)/3500). -/
def contHop (dist : ℝ) : ℝ := (0.92 : ℝ) ^ (max 0 ((dist - 500) / 3500))

/-- `calculate_reliability_vec` (muf_map.py lines 220-307), scalar semantics. -/
def calculate_reliability_vec (freq dist mlat mlon hour sfi ssn k f0 : ℝ)
    (m0 : Option ℝ) (md0 marginDb : ℝ) : ℝ :=
  let muf := calculate_muf_vec dist mlat mlon hour sfi ssn f0 m0 md0
  let luf := calculate_luf_vec dist mlat hour sfi k
  let em := muf * (1 + marginDb * 0.012)
  let el := luf * max 0.1 (1 - marginDb * 0.008)
  let base := zoneBaseVec freq em el
  let r1 := base * kFactor k
  let r2 := r1 * contHop dist
  let latPen := min (max ((|mlat| - 60) / 20) 0) 1
  let r3 := r2 * (1 - latPen * 0.6)
  let r4 := if 3 ≤ k then (if 60 < |mlat| then r3 * (1 - latPen * 0.4) else r3) else r3
  let r5 := if 50 ≤ freq ∧ sfi < 150 then r4 * (sfi / 150) ^ (1.5 : ℝ)
            else if 28 ≤ freq ∧ sfi < 120 then r4 * Real.sqrt (sfi / 120)
            else if 21 ≤ freq ∧ sfi < 100 then r4 * Real.sqrt (sfi / 100)
            else r4
  let lh := pyMod (hour + mlon / 15 + 24) 24
  let night := lh < 6 ∨ 18 < lh
  let r6 := if freq ≤ 3.5 then (if ¬night then r5 * 0.7 else r5)
            else if freq ≤ 7 then (if night then r5 * 1.1 else r5)
            else r5
  clip99 r6

end

/-!  ## Band-conditions text forecast (band_service.py, voacap_bandconditions.py)  -/

noncomputable section

/-- The environment a band-conditions request runs in: the ionosonde station
snapshot, the Kp reading, the current UTC hour, and the current date. -/
structure BandEnv where
  stations : List Station
  kp : ℝ
  currentHour : ℝ
  year : ℤ
  month : ℤ

/-- The parsed request parameters of `get_band_conditions`. -/
structure BandReq where
  txLat : ℝ
  txLng : ℝ
  rxLat : ℝ
  rxLng : ℝ
  toa : ℝ
  ssn : ℝ
  pathArg : ℤ
  mode : String
  power : ℝ

/-- `calculate_point_reliability` (band_service.py lines 87-100): the
reliability component of `calculate_point_propagation`. -/
def calculate_point_reliability (e : BandEnv) (q : BandReq) (utc mhz : ℝ) : ℝ :=
  (calculate_point_propagation e.stations e.kp e.currentHour q.txLat q.txLng
    q.rxLat q.rxLng mhz q.toa e.year e.month utc q.ssn q.pathArg q.mode q.power).2

/-- The nine band frequencies of `get_band_conditions` (band_service.py
line 59). -/
def bands : List ℝ := [3.5, 5.3, 7, 10.1, 14, 18.1, 21, 24.9, 28]

/-- The two-decimal rendering `f-string .2f` of a value, as integer
hundredths (round half up; no computed value sits near a tie). -/
def fmt2 (v : ℝ) : ℤ := ⌊v * 100 + 1 / 2⌋

/-- Lines 3-26 of the text forecast (band_service.py lines 80-83): one line
per hour 1..23 then 0, each carrying the hour and the nine two-decimal band
values produced by `get_rels_for_utc`. -/
def band_forecast_lines (e : BandEnv) (q : BandReq) : List (ℕ × List ℤ) :=
  ((List.range' 1 23).map fun h =>
    ((h, bands.map fun mhz =>
      fmt2 (calculate_point_reliability e q (h : ℝ) mhz)) : ℕ × List ℤ)) ++
  [(0, bands.map fun mhz => fmt2 (calculate_point_reliability e q 0 mhz))]

/-- The row padding of `predict_row_for_hour` in the standalone dvoacap
script (voacap_bandconditions.py lines 262-268): pad to 8 values, then append
one 0.00 placeholder. -/
def scriptRow (row : List ℝ) : List ℝ :=
  (row ++ List.replicate (8 - row.length) 0) ++ [0]

/-- A station at (0°, 90°E) with a truthy mufd of 30. -/
def st90 : Station := ⟨"A", "A", 0, 90, 10, some 30, none, 3, 100, 0⟩

/-- Concrete environment: one station, kp 3, current hour 12. -/
def envC5 : BandEnv := ⟨[st90], 3, 12, 2026, 10⟩

/-- Concrete request: TX (0°,0°), RX (0°,180°), SSB at 100 W, short path. -/
def reqC5 : BandReq := ⟨0, 0, 0, 180, 3, 100, 0, "SSB", 100⟩

end

/-- C10: with an empty (cached or supplied) station list, `interpolate_fof2`
returns `none` rather than a no-coverage result, and `calculate_muf` treats the
absent ionosonde data as missing and uses the solar-activity fallback. -/
theorem C10_empty_store_none :
    (∀ lat lon : ℝ, interpolate_fof2 lat lon [] = none) ∧
    (∀ dist mlat mlon hour sfi ssn : ℝ,
      calculate_muf dist mlat mlon hour sfi ssn none =
        (if dist < 3000 then mufDistLow (solar_muf3000 mlat hour ssn) dist
         else mufDistHigh (solar_muf3000 mlat hour ssn) dist)) := by
  constructor
  · intro lat lon
    rfl
  · intro dist mlat mlon hour sfi ssn
    rfl

/-- C4: the two distance-conversion branches of `calculate_muf` agree exactly
at distance = 3000 km: for every muf3000 > 0,
muf3000·sqrt(3000/3000) = muf3000·(1 + 0.15·log10(3000/3000)). -/
theorem C4_muf_branch_continuity (m : ℝ) (hm : 0 < m) :
    mufDistLow m 3000 = mufDistHigh m 3000 := by
  unfold mufDistLow mufDistHigh
  have h1 : (3000 : ℝ) / 3000 = 1 := by norm_num
  rw [h1, Real.sqrt_one, Real.logb_one]
  ring

/-- Witness for C4 at muf3000 = 30. -/
theorem C4_muf_branch_continuity_witness :
    (0 : ℝ) < 30 ∧ mufDistLow 30 3000 = mufDistHigh 30 3000 :=
  ⟨by norm_num, C4_muf_branch_continuity 30 (by norm_num)⟩

/-- The final clip of the reliability model is nonnegative. -/
lemma clip99_nonneg (x : ℝ) : 0 ≤ clip99 x :=
  le_min (by norm_num) (le_max_left 0 x)

/-- The final clip of the reliability model is at most 99. -/
lemma clip99_le (x : ℝ) : clip99 x ≤ 99 := min_le_left _ _

/-- `calculate_enhanced_reliability` always lands in [0, 99]. -/
lemma cer_mem (freq dist mlat mlon hour sfi ssn k : ℝ) (iono : Option IonoData)
    (ch marginDb : ℝ) :
    0 ≤ calculate_enhanced_reliability freq dist mlat mlon hour sfi ssn k iono ch marginDb ∧
    calculate_enhanced_reliability freq dist mlat mlon hour sfi ssn k iono ch marginDb ≤ 99 := by
  unfold calculate_enhanced_reliability
  exact ⟨clip99_nonneg _, clip99_le _⟩

/-- The reliability component of `calculate_point_propagation`, unfolded. -/
lemma cpp_snd (stations : List Station) (kp currentHour : ℝ)
    (txLat txLng rxLat rxLng mhz toa : ℝ) (year month : ℤ) (utc ssn : ℝ)
    (pathArg : ℤ) (mode : String) (power : ℝ) :
    (calculate_point_propagation stations kp currentHour txLat txLng rxLat rxLng
      mhz toa year month utc ssn pathArg mode power).2 =
    calculate_enhanced_reliability mhz (haversine_distance txLat txLng rxLat rxLng)
      ((txLat + rxLat) / 2)
      (if 180 < |txLng - rxLng| then
        (let m := (txLng + rxLng + 360) / 2; if 180 < m then m - 360 else m)
       else (txLng + rxLng) / 2)
      utc 150 ssn kp
      (interpToIono (interpolate_fof2 ((txLat + rxLat) / 2)
        (if 180 < |txLng - rxLng| then
          (let m := (txLng + rxLng + 360) / 2; if 180 < m then m - 360 else m)
         else (txLng + rxLng) / 2) stations))
      currentHour (calculate_signal_margin mode power) / 100 := rfl

/-- C3: for all inputs, `calculate_enhanced_reliability` lies in [0, 99] and the
reliability fraction returned by `calculate_point_propagation` lies in [0, 0.99]. -/
theorem C3_reliability_range (freq dist mlat mlon hour sfi ssn k : ℝ)
    (iono : Option IonoData) (ch marginDb : ℝ)
    (stations : List Station) (kp currentHour : ℝ)
    (txLat txLng rxLat rxLng mhz toa : ℝ) (year month : ℤ) (utc ssn2 : ℝ)
    (pathArg : ℤ) (mode : String) (power : ℝ) :
    (0 ≤ calculate_enhanced_reliability freq dist mlat mlon hour sfi ssn k iono ch marginDb ∧
     calculate_enhanced_reliability freq dist mlat mlon hour sfi ssn k iono ch marginDb ≤ 99) ∧
    (0 ≤ (calculate_point_propagation stations kp currentHour txLat txLng rxLat rxLng
        mhz toa year month utc ssn2 pathArg mode power).2 ∧
     (calculate_point_propagation stations kp currentHour txLat txLng rxLat rxLng
        mhz toa year month utc ssn2 pathArg mode power).2 ≤ 0.99) := by
  refine ⟨cer_mem _ _ _ _ _ _ _ _ _ _ _, ?_⟩
  rw [cpp_snd]
  have h := cer_mem mhz (haversine_distance txLat txLng rxLat rxLng)
    ((txLat + rxLat) / 2)
    (if 180 < |txLng - rxLng| then
      (let m := (txLng + rxLng + 360) / 2; if 180 < m then m - 360 else m)
     else (txLng + rxLng) / 2)
    utc 150 ssn2 kp
    (interpToIono (interpolate_fof2 ((txLat + rxLat) / 2)
      (if 180 < |txLng - rxLng| then
        (let m := (txLng + rxLng + 360) / 2; if 180 < m then m - 360 else m)
       else (txLng + rxLng) / 2) stations))
    currentHour (calculate_signal_margin mode power)
  constructor
  · linarith [h.1]
  · linarith [h.2]

/-- C1 counterexample: at eff_muf = 20, the zone-1 formula and the zone-2
formula disagree at the boundary freq = 1.1·eff_muf (20 versus 30), so the
base reliability is not continuous at that boundary. -/
theorem C1_counterexample : zone1 (1.1 * 20) 20 ≠ zone2 (1.1 * 20) 20 := by
  unfold zone1 zone2
  norm_num

/-- C1 amended: for all 0 < eff_luf < eff_muf the adjacent zone formulas agree
at freq = eff_luf and freq = eff_muf (both sides equal 50), but at
freq = 0.8·eff_luf and freq = 1.1·eff_muf the adjacent formulas always
disagree (zone 3 gives max(0, 20−2·eff_luf) < 20 = zone 4; zone 1 gives
max(0, 30−0.5·eff_muf) < 30 = zone 2). -/
theorem C1_amended (m l : ℝ) (hl : 0 < l) (hlm : l < m) :
    zone4 l l = zone5 l m l ∧ zone5 m m l = zone2 m m ∧
    zone3 (0.8 * l) l < zone4 (0.8 * l) l ∧ zone1 (1.1 * m) m < zone2 (1.1 * m) m := by
  have hl0 : l ≠ 0 := ne_of_gt hl
  have hm : (0 : ℝ) < m := lt_trans hl hlm
  have hm0 : m ≠ 0 := ne_of_gt hm
  have hml : ¬(m - l ≤ 0) := by linarith
  have hml0 : m - l ≠ 0 := by intro h; apply hml; rw [h]
  refine ⟨?_, ?_, ?_, ?_⟩
  · unfold zone4 zone5
    rw [if_neg hml]
    have h1 : (l - l) / (m - l) = 0 := by rw [sub_self, zero_div]
    rw [h1, if_pos (by norm_num : (0 : ℝ) < 0.75)]
    have h2 : l - l * 0.8 = l * 0.2 := by ring
    rw [h2, div_self (mul_ne_zero hl0 (by norm_num))]
    norm_num
  · unfold zone5 zone2
    rw [if_neg hml, div_self hml0]
    rw [if_neg (by norm_num : ¬((1 : ℝ) < 0.75))]
    have h2 : m * 1.1 - m = m * 0.1 := by ring
    rw [h2, div_self (mul_ne_zero hm0 (by norm_num))]
    norm_num
  · unfold zone3 zone4
    have h1 : (0.8 * l - l * 0.8) = 0 := by ring
    rw [h1, zero_div]
    have h2 : l - 0.8 * l = 0.2 * l := by ring
    rw [h2]
    have h3 : (20 : ℝ) - 0.2 * l * 10 < 20 := by nlinarith
    calc max 0 (20 - 0.2 * l * 10) < 20 := max_lt (by norm_num) h3
    _ = 20 + 0 * 30 := by ring
  · unfold zone1 zone2
    have h1 : m * 1.1 - 1.1 * m = 0 := by ring
    rw [h1, zero_div]
    have h2 : 1.1 * m - m = 0.1 * m := by ring
    rw [h2]
    have h3 : (30 : ℝ) - 0.1 * m * 5 < 30 := by nlinarith
    calc max 0 (30 - 0.1 * m * 5) < 30 := max_lt (by norm_num) h3
    _ = 30 + 0 * 20 := by ring

/-- Witness for C1 amended at eff_muf = 20, eff_luf = 5. -/
theorem C1_amended_witness :
    (0 : ℝ) < 5 ∧ (5 : ℝ) < 20 ∧
    (zone4 5 5 = zone5 5 20 5 ∧ zone5 20 20 5 = zone2 20 20 ∧
     zone3 (0.8 * 5) 5 < zone4 (0.8 * 5) 5 ∧ zone1 (1.1 * 20) 20 < zone2 (1.1 * 20) 20) :=
  ⟨by norm_num, by norm_num, C1_amended 20 5 (by norm_num) (by norm_num)⟩

/-- C9: when the forecast hour equals the current hour the ionosonde data is
passed to the MUF computation unchanged; otherwise foF2 and mufd of a fresh
copy are both multiplied by hour_factor(hour)/hour_factor(current_hour) while
hmF2 and md are untouched (the caller's record is a value in this embedding,
so the original is never modified). -/
theorem C9_hour_scaling (d : IonoData) (hour ch : ℝ) :
    (hour = ch → hourIonoData (some d) hour ch = some d) ∧
    (hour ≠ ch → hourIonoData (some d) hour ch =
      some { foF2 := d.foF2.map (· * (hour_factor hour / hour_factor ch)),
             mufd := d.mufd.map (· * (hour_factor hour / hour_factor ch)),
             hmF2 := d.hmF2, md := d.md }) ∧
    hourIonoData none hour ch = none := by
  refine ⟨?_, ?_, rfl⟩
  · intro h; subst h; simp [hourIonoData]
  · intro h; simp [hourIonoData, h]

/-- Witness for C9 at a concrete record, with hours 12/12 and 13/12. -/
theorem C9_hour_scaling_witness :
    hourIonoData (some ⟨some 6, some 20, none, some 3⟩) 12 12 =
      some ⟨some 6, some 20, none, some 3⟩ ∧
    hourIonoData (some ⟨some 6, some 20, none, some 3⟩) 13 12 =
      some ⟨(some 6).map (· * (hour_factor 13 / hour_factor 12)),
            (some 20).map (· * (hour_factor 13 / hour_factor 12)), none, some 3⟩ :=
  ⟨(C9_hour_scaling ⟨some 6, some 20, none, some 3⟩ 12 12).1 rfl,
   (C9_hour_scaling ⟨some 6, some 20, none, some 3⟩ 13 12).2.1 (by norm_num)⟩

/-- C6 counterexample: with an EMPTY cached list, a failed fetch at t = 5 does
return the cached empty list and bump the timestamp, but the very next call at
t = 10 — well inside the 10-minute TTL — bypasses the TTL guard (the guard
requires a nonempty cached list), attempts another fetch, and returns freshly
fetched data instead of the cached list. -/
theorem C6_counterexample :
    fetch_ionosonde_data ⟨[], 0⟩ 5 none = ⟨[], ⟨[], 5⟩, true⟩ ∧
    (10 : ℝ) - 5 < 600 ∧
    (fetch_ionosonde_data ⟨[], 5⟩ 10 (some [rawG])).attempted = true ∧
    (fetch_ionosonde_data ⟨[], 5⟩ 10 (some [rawG])).result ≠ [] := by
  have h1 : fetch_ionosonde_data ⟨[], 0⟩ 5 none = ⟨[], ⟨[], 5⟩, true⟩ := by
    unfold fetch_ionosonde_data
    rw [if_neg (by simp)]
  have h2 : fetch_ionosonde_data ⟨[], 5⟩ 10 (some [rawG]) =
      ⟨ingest 10 [rawG], ⟨ingest 10 [rawG], 10⟩, true⟩ := by
    unfold fetch_ionosonde_data
    rw [if_neg (by simp)]
  have h3 : ingest 10 [rawG] = [stG] := by
    unfold ingest rawG stG
    simp only [List.filterMap, ingestOne]
    norm_num [truthy, mdDefault]
  refine ⟨h1, by norm_num, by rw [h2], ?_⟩
  rw [h2]
  simp [h3]

/-- C6 amended: on a failed fetch (which happens only when the cached list is
empty or stale) the cached list is returned unchanged and the timestamp is set
to now; and whenever the cached list is NONEMPTY and fresh (within the
10-minute TTL), any call returns it without attempting a fetch.  An empty
cached list bypasses the TTL guard, so the next call retries the fetch. -/
theorem C6_amended :
    (∀ (c : IonoCache) (now : ℝ), (c.data = [] ∨ ¬(now - c.timestamp < 600)) →
      fetch_ionosonde_data c now none = ⟨c.data, ⟨c.data, now⟩, true⟩) ∧
    (∀ (d : List Station) (ts now : ℝ) (outcome : Option (List RawStation)),
      d ≠ [] → now - ts < 600 →
      fetch_ionosonde_data ⟨d, ts⟩ now outcome = ⟨d, ⟨d, ts⟩, false⟩) := by
  constructor
  · intro c now h
    unfold fetch_ionosonde_data
    rw [if_neg]
    rcases h with h | h
    · simp [h]
    · intro hc; exact h hc.2
  · intro d ts now outcome hd httl
    unfold fetch_ionosonde_data
    rw [if_pos]
    constructor
    · simpa using hd
    · exact httl

/-- Witness for C6 amended: a failing call on an empty stale cache, and a
fresh nonempty cache serving without a fetch. -/
theorem C6_amended_witness :
    fetch_ionosonde_data ⟨[], 0⟩ 7 none = ⟨[], ⟨[], 7⟩, true⟩ ∧
    ([stG] ≠ ([] : List Station)) ∧ ((7 : ℝ) - 0 < 600) ∧
    fetch_ionosonde_data ⟨[stG], 0⟩ 7 none = ⟨[stG], ⟨[stG], 0⟩, false⟩ :=
  ⟨C6_amended.1 ⟨[], 0⟩ 7 (Or.inl rfl), by simp, by norm_num,
   C6_amended.2 [stG] 0 7 none (by simp) (by norm_num)⟩

/-- Inserting commutes with a position-preserving station modification. -/
lemma insertByDist_mapG (g : Station → Station) (p : Station × ℝ)
    (l : List (Station × ℝ)) :
    insertByDist (mapG g p) (l.map (mapG g)) = (insertByDist p l).map (mapG g) := by
  induction l with
  | nil => rfl
  | cons q t ih =>
    by_cases h : p.2 < q.2
    · simp [insertByDist, mapG, h, ih]
    · simp only [insertByDist, mapG, h, if_false, List.map_cons]
      exact congrArg _ ih

/-- Sorting by distance commutes with a position-preserving modification. -/
lemma sortByDist_mapG (g : Station → Station) (l : List (Station × ℝ)) :
    sortByDist (l.map (mapG g)) = (sortByDist l).map (mapG g) := by
  induction l with
  | nil => rfl
  | cons p t ih =>
    simp only [List.map_cons, sortByDist, List.foldr] at *
    rw [ih, insertByDist_mapG]

/-- Distance computation ignores every field except lat/lon. -/
lemma withDist_mapG (lat lon : ℝ) (ss : List Station) (g : Station → Station)
    (hlat : ∀ x, (g x).lat = x.lat) (hlon : ∀ x, (g x).lon = x.lon) :
    withDist lat lon (ss.map g) = (withDist lat lon ss).map (mapG g) := by
  unfold withDist
  rw [List.map_map, List.map_map]
  apply List.map_congr_left
  intro s _
  simp [mapG, hlat s, hlon s]

/-- C7 counterexample: a raw feed record with longitude −190 passes every
ingestion filter and is stored with longitude −190, outside [−180, 180] — the
normalization only handles raw longitudes above 180. -/
theorem C7_counterexample :
    (ingestOne 0 raw190).map Station.lon = some (-190) ∧ ((-190 : ℝ) < -180) := by
  constructor
  · unfold ingestOne raw190
    norm_num [truthy, mdDefault]
  · norm_num

/-- C7 amended: every record a successful fetch stores has positive
confidence, a timestamp within 24 h of the fetch time and a truthy foF2, and
its stored longitude lies in [−180, 180] provided the raw longitude lies in
[−180, 540] (the normalization only subtracts 360 from longitudes above 180);
and `interpolate_fof2` performs no confidence or freshness filtering at query
time: the selected neighbor set is unchanged by any modification of the
stations that keeps their positions (in particular by arbitrary changes to
confidence and timestamp). -/
theorem C7_amended :
    (∀ (now : ℝ) (s : RawStation) (st : Station), ingestOne now s = some st →
      0 < st.confidence ∧ |now - st.time| ≤ 86400 ∧ st.foF2 ≠ 0 ∧
      (∀ info : RawInfo, s.station = some info →
        -180 ≤ info.longitude → info.longitude ≤ 540 →
        -180 ≤ st.lon ∧ st.lon ≤ 180)) ∧
    (∀ (lat lon : ℝ) (ss : List Station) (g : Station → Station),
      (∀ x, (g x).lat = x.lat) → (∀ x, (g x).lon = x.lon) →
      neighborsOf lat lon (ss.map g) = (neighborsOf lat lon ss).map (mapG g)) := by
  constructor
  · intro now s st h
    unfold ingestOne at h
    split at h
    case _ f2 info hf2 hinfo =>
      by_cases h0 : f2 = 0
      · rw [if_pos h0] at h; exact absurd h (by simp)
      rw [if_neg h0] at h
      by_cases hcs : s.cs ≤ 0
      · rw [if_pos hcs] at h; exact absurd h (by simp)
      rw [if_neg hcs] at h
      split at h
      case _ => exact absurd h (by simp)
      case _ ts hts =>
        by_cases htime : 86400 < |now - ts|
        · rw [if_pos htime] at h; exact absurd h (by simp)
        rw [if_neg htime] at h
        injection h with h
        subst h
        refine ⟨lt_of_not_le hcs, le_of_not_lt htime, h0, ?_⟩
        intro info2 hinfo2 hlo hhi
        rw [hinfo] at hinfo2
        injection hinfo2 with hinfo2
        subst hinfo2
        dsimp only
        split_ifs with hlon
        · constructor <;> linarith
        · exact ⟨hlo, not_lt.mp hlon⟩
    case _ => exact absurd h (by simp)
  · intro lat lon ss g hlat hlon
    unfold neighborsOf
    rw [withDist_mapG lat lon ss g hlat hlon, sortByDist_mapG, List.filter_map,
      List.map_take]
    have hp : ((fun p : Station × ℝ => decide (p.2 ≤ 3000)) ∘ mapG g) =
        (fun p : Station × ℝ => decide (p.2 ≤ 3000)) := rfl
    rw [hp]

/-- Witness for C7 amended: a concrete valid ingestion and a concrete
position-preserving modification. -/
theorem C7_amended_witness :
    ingestOne 10 rawG = some stG ∧
    (0 < stG.confidence ∧ |(10 : ℝ) - stG.time| ≤ 86400 ∧ stG.foF2 ≠ 0 ∧
      (∀ info : RawInfo, rawG.station = some info →
        -180 ≤ info.longitude → info.longitude ≤ 540 →
        -180 ≤ stG.lon ∧ stG.lon ≤ 180)) ∧
    neighborsOf 1 2 ([stG].map gConfTime) = (neighborsOf 1 2 [stG]).map (mapG gConfTime) := by
  have he : ingestOne 10 rawG = some stG := by
    unfold ingestOne rawG stG
    norm_num [truthy, mdDefault]
  exact ⟨he, C7_amended.1 10 rawG stG he,
    C7_amended.2 1 2 [stG] gConfTime (fun x => rfl) (fun x => rfl)⟩

/-- IDW weights are positive for positive confidence. -/
lemma wOf_pos (p : Station × ℝ) (hc : 0 < p.1.confidence) : 0 < wOf p :=
  div_pos (div_pos hc (by norm_num))
    (pow_pos (lt_of_lt_of_le one_pos (le_max_left 1 p.2)) 2)

/-- Membership through one insertion step. -/
lemma mem_insertByDist (p q : Station × ℝ) (l : List (Station × ℝ))
    (h : q ∈ insertByDist p l) : q = p ∨ q ∈ l := by
  induction l with
  | nil => simpa [insertByDist] using h
  | cons r t ih =>
    simp only [insertByDist] at h
    split_ifs at h with hc
    · rcases List.mem_cons.mp h with h | h
      · exact Or.inl h
      · exact Or.inr h
    · rcases List.mem_cons.mp h with h | h
      · exact Or.inr (by simp [h])
      · rcases ih h with h | h
        · exact Or.inl h
        · exact Or.inr (by simp [h])

/-- Sorting by distance creates no new elements. -/
lemma mem_sortByDist (q : Station × ℝ) (l : List (Station × ℝ))
    (h : q ∈ sortByDist l) : q ∈ l := by
  induction l with
  | nil => simpa [sortByDist] using h
  | cons p t ih =>
    have he : sortByDist (p :: t) = insertByDist p (sortByDist t) := rfl
    rw [he] at h
    rcases mem_insertByDist p q _ h with h | h
    · simp [h]
    · exact List.mem_cons_of_mem _ (ih h)

/-- Every selected neighbor is one of the cached stations. -/
lemma mem_neighborsOf (lat lon : ℝ) (ss : List Station) (p : Station × ℝ)
    (h : p ∈ neighborsOf lat lon ss) : p.1 ∈ ss := by
  unfold neighborsOf at h
  have h1 := List.mem_of_mem_take h
  have h2 := List.mem_of_mem_filter h1
  have h3 := mem_sortByDist _ _ h2
  unfold withDist at h3
  obtain ⟨s, hs, rfl⟩ := List.mem_map.mp h3
  exact hs

/-- Accumulating over truthy fields equals accumulating over the sub-list of
neighbors where the field is present, when present values are nonzero. -/
lemma sum_truthy_filter (f : Station → Option ℝ) (gfun : Station × ℝ → ℝ)
    (ns : List (Station × ℝ))
    (hv : ∀ p ∈ ns, ∀ v, f p.1 = some v → v ≠ 0) :
    (ns.map fun p => if truthy (f p.1) then gfun p else 0).sum =
    ((ns.filter fun p => (f p.1).isSome).map gfun).sum := by
  induction ns with
  | nil => rfl
  | cons p t ih =>
    have ht : ∀ q ∈ t, ∀ v, f q.1 = some v → v ≠ 0 :=
      fun q hq => hv q (List.mem_cons_of_mem _ hq)
    rw [List.map_cons, List.sum_cons, ih ht, List.filter_cons]
    cases hf : f p.1 with
    | none => simp [truthy, hf]
    | some v =>
      have hv0 : v ≠ 0 := hv p (List.mem_cons_self _ _) v hf
      simp [truthy, hf, hv0]

/-- The corrected `weighted_avg` of the source equals the specification's
per-field IDW average, provided confidences are positive and present field
values are nonzero (which ingestion guarantees). -/
lemma weightedAvg_eq_specIDW (f : Station → Option ℝ) (ns : List (Station × ℝ))
    (hc : ∀ p ∈ ns, 0 < p.1.confidence)
    (hv : ∀ p ∈ ns, ∀ v, f p.1 = some v → v ≠ 0) :
    weightedAvg f ns = specIDW f ns := by
  unfold weightedAvg specIDW
  rw [sum_truthy_filter f wOf ns hv,
    sum_truthy_filter f (fun p => (f p.1).getD 0 * wOf p) ns hv]
  by_cases hrs : (ns.filter fun p => (f p.1).isSome).isEmpty
  · rw [List.isEmpty_iff] at hrs
    rw [hrs]
    simp
  · have hne : (ns.filter fun p => (f p.1).isSome) ≠ [] := by
      intro hcon
      rw [hcon] at hrs
      exact hrs rfl
    have hpos : 0 < ((ns.filter fun p => (f p.1).isSome).map wOf).sum := by
      apply List.sum_pos
      · intro x hx
        obtain ⟨p, hp, rfl⟩ := List.mem_map.mp hx
        exact wOf_pos p (hc p (List.mem_of_mem_filter hp))
      · simpa using hne
    rw [if_pos hpos, if_neg hrs]

/-- A spec-side IDW average of `md` over neighbors with positive confidence
and positive md is positive. -/
lemma specIDW_fMd_pos (ns : List (Station × ℝ))
    (hc : ∀ p ∈ ns, 0 < p.1.confidence) (hmd : ∀ p ∈ ns, 0 < p.1.md) :
    ∀ v, specIDW fMd ns = some v → 0 < v := by
  intro v hv
  simp only [specIDW] at hv
  split_ifs at hv with he
  injection hv with hv
  subst hv
  have hne : (ns.filter fun p => (fMd p.1).isSome) ≠ [] := by
    intro hcon
    rw [hcon] at he
    exact he rfl
  apply div_pos
  · apply List.sum_pos
    · intro x hx
      obtain ⟨p, hp, rfl⟩ := List.mem_map.mp hx
      have hpm := List.mem_of_mem_filter hp
      exact mul_pos (hmd p hpm) (wOf_pos p (hc p hpm))
    · simpa using hne
  · apply List.sum_pos
    · intro x hx
      obtain ⟨p, hp, rfl⟩ := List.mem_map.mp hx
      exact wOf_pos p (hc p (List.mem_of_mem_filter hp))
    · simpa using hne

/-- C2: whenever `interpolate_fof2` resolves a query by the interpolated
method, each returned field equals the spec's per-field inverse-distance
weighted average over exactly the neighbors reporting that field, with weight
(confidence/100)/max(1,dist)² in numerator and denominator, and md defaults to
3.0 when no neighbor contributes one.  The hypotheses are the ingestion
invariants (positive confidence, foF2 and md; positive optional fields). -/
theorem C2_idw_per_field (lat lon : ℝ) (ss : List Station)
    (hst : ∀ s ∈ ss, 0 < s.confidence ∧ 0 < s.foF2 ∧ 0 < s.md ∧
      (∀ v, s.mufd = some v → 0 < v) ∧ (∀ v, s.hmF2 = some v → 0 < v))
    (u : ℕ) (nm : String) (nd : ℝ) (f2 mu hm : Option ℝ) (md0 : ℝ)
    (heq : interpolate_fof2 lat lon ss =
      some (.interpolated u nm nd f2 mu hm md0)) :
    f2 = specIDW fFoF2 (neighborsOf lat lon ss) ∧
    mu = specIDW fMufd (neighborsOf lat lon ss) ∧
    hm = specIDW fHmF2 (neighborsOf lat lon ss) ∧
    md0 = (specIDW fMd (neighborsOf lat lon ss)).getD 3 := by
  have hc : ∀ p ∈ neighborsOf lat lon ss, 0 < p.1.confidence :=
    fun p hp => (hst p.1 (mem_neighborsOf lat lon ss p hp)).1
  have hmd : ∀ p ∈ neighborsOf lat lon ss, 0 < p.1.md :=
    fun p hp => (hst p.1 (mem_neighborsOf lat lon ss p hp)).2.2.1
  have hvF : ∀ p ∈ neighborsOf lat lon ss, ∀ v, fFoF2 p.1 = some v → v ≠ 0 := by
    intro p hp v hv
    unfold fFoF2 at hv
    injection hv with hv
    subst hv
    exact ne_of_gt (hst p.1 (mem_neighborsOf lat lon ss p hp)).2.1
  have hvM : ∀ p ∈ neighborsOf lat lon ss, ∀ v, fMufd p.1 = some v → v ≠ 0 :=
    fun p hp v hv =>
      ne_of_gt ((hst p.1 (mem_neighborsOf lat lon ss p hp)).2.2.2.1 v hv)
  have hvH : ∀ p ∈ neighborsOf lat lon ss, ∀ v, fHmF2 p.1 = some v → v ≠ 0 :=
    fun p hp v hv =>
      ne_of_gt ((hst p.1 (mem_neighborsOf lat lon ss p hp)).2.2.2.2 v hv)
  have hvD : ∀ p ∈ neighborsOf lat lon ss, ∀ v, fMd p.1 = some v → v ≠ 0 := by
    intro p hp v hv
    unfold fMd at hv
    injection hv with hv
    subst hv
    exact ne_of_gt (hmd p hp)
  unfold interpolate_fof2 at heq
  rcases hsort : sortByDist (withDist lat lon ss) with _ | ⟨nearest, rest⟩ <;>
    rw [hsort] at heq
  · exact absurd heq (by simp [interpGo])
  rcases hnb : neighborsOf lat lon ss with _ | ⟨n0, nsr⟩ <;> rw [hnb] at heq
  · simp only [interpGo] at heq
    split_ifs at heq <;> exact absurd heq (by simp)
  simp only [interpGo] at heq
  split_ifs at heq with hfar hnear hzero
  · exact absurd heq (by simp)
  · exact absurd heq (by simp)
  rw [Option.some_inj, InterpResult.interpolated.injEq] at heq
  obtain ⟨_, _, _, hf2, hmu, hhm, hmd0⟩ := heq
  rw [hnb] at hc hmd hvF hvM hvH hvD
  refine ⟨?_, ?_, ?_, ?_⟩
  · rw [← hf2, weightedAvg_eq_specIDW fFoF2 _ hc hvF]
  · rw [← hmu, weightedAvg_eq_specIDW fMufd _ hc hvM]
  · rw [← hhm, weightedAvg_eq_specIDW fHmF2 _ hc hvH]
  · rw [← hmd0, weightedAvg_eq_specIDW fMd _ hc hvD]
    rcases hca : specIDW fMd (n0 :: nsr) with _ | v
    · rfl
    · have hvpos := specIDW_fMd_pos (n0 :: nsr) hc hmd v hca
      simp [mdDefault, hvpos.ne']

/-- The haversine core: for 0 ≤ θ < π/2,
atan2(sqrt(sin²θ), sqrt(1−sin²θ)) = θ. -/
lemma atan2_sin_cos (θ : ℝ) (h0 : 0 ≤ θ) (h1 : θ < Real.pi / 2) :
    atan2 (Real.sqrt (Real.sin θ ^ 2)) (Real.sqrt (1 - Real.sin θ ^ 2)) = θ := by
  have hsin : 0 ≤ Real.sin θ :=
    Real.sin_nonneg_of_nonneg_of_le_pi h0 (by linarith [Real.pi_pos])
  have hs : Real.sqrt (Real.sin θ ^ 2) = Real.sin θ := Real.sqrt_sq hsin
  have hcos : 0 < Real.cos θ :=
    Real.cos_pos_of_mem_Ioo ⟨by linarith [Real.pi_pos], h1⟩
  have hcsq : 1 - Real.sin θ ^ 2 = Real.cos θ ^ 2 := by
    have := Real.sin_sq_add_cos_sq θ
    linarith
  have hc : Real.sqrt (1 - Real.sin θ ^ 2) = Real.cos θ := by
    rw [hcsq, Real.sqrt_sq hcos.le]
  rw [hs, hc]
  unfold atan2
  rw [if_pos hcos, ← Real.tan_eq_sin_div_cos,
    Real.arctan_tan (by linarith [Real.pi_pos]) h1]

/-- The distance from (0°, 0°) to (10°N, 0°) is exactly 6371·π/18 km. -/
lemma hav_0_0_10_0 : haversine_distance 0 0 10 0 = 6371 * (Real.pi / 18) := by
  simp only [haversine_distance, radians]
  have ha : Real.sin ((10 - 0) * (Real.pi / 180) / 2) ^ 2 +
      Real.cos (0 * (Real.pi / 180)) * Real.cos (10 * (Real.pi / 180)) *
        Real.sin ((0 - 0) * (Real.pi / 180) / 2) ^ 2 =
      Real.sin (Real.pi / 36) ^ 2 := by
    have e1 : ((10 : ℝ) - 0) * (Real.pi / 180) / 2 = Real.pi / 36 := by ring
    have e2 : ((0 : ℝ) - 0) * (Real.pi / 180) / 2 = 0 := by ring
    rw [e1, e2, Real.sin_zero]
    ring
  rw [ha, atan2_sin_cos (Real.pi / 36) (by positivity) (by linarith [Real.pi_pos])]
  ring

/-- `interpolate_fof2` on a single station between 50 km and 3000 km away
resolves by the interpolated method over that one neighbor. -/
lemma interpolate_single (lat lon d : ℝ) (s : Station)
    (hd : haversine_distance lat lon s.lat s.lon = d)
    (h50 : ¬d < 50) (h3000 : d ≤ 3000) (hw : ¬sumWeights [(s, d)] = 0) :
    interpolate_fof2 lat lon [s] = some (.interpolated 1 s.name d
      (weightedAvg fFoF2 [(s, d)]) (weightedAvg fMufd [(s, d)])
      (weightedAvg fHmF2 [(s, d)]) (mdDefault (weightedAvg fMd [(s, d)]))) := by
  have hwd : withDist lat lon [s] = [(s, d)] := by
    unfold withDist
    simp [hd]
  have hsort : sortByDist [(s, d)] = [(s, d)] := rfl
  have hnb : neighborsOf lat lon [s] = [(s, d)] := by
    unfold neighborsOf
    rw [hwd, hsort]
    simp [List.filter_cons, h3000]
  unfold interpolate_fof2
  rw [hwd, hsort, hnb]
  simp only [interpGo]
  rw [if_neg (show ¬(3000 : ℝ) < d by linarith), if_neg h50, if_neg hw]
  rfl

/-- Witness for C2: a single station 6371·π/18 ≈ 1112 km from the query point
satisfies the ingestion invariants and resolves by the interpolated method. -/
theorem C2_idw_per_field_witness :
    (∀ s ∈ [stA], 0 < s.confidence ∧ 0 < s.foF2 ∧ 0 < s.md ∧
      (∀ v, s.mufd = some v → 0 < v) ∧ (∀ v, s.hmF2 = some v → 0 < v)) ∧
    interpolate_fof2 0 0 [stA] = some (.interpolated 1 "A" (6371 * (Real.pi / 18))
      (specIDW fFoF2 (neighborsOf 0 0 [stA])) (specIDW fMufd (neighborsOf 0 0 [stA]))
      (specIDW fHmF2 (neighborsOf 0 0 [stA]))
      ((specIDW fMd (neighborsOf 0 0 [stA])).getD 3)) := by
  have hst : ∀ s ∈ [stA], 0 < s.confidence ∧ 0 < s.foF2 ∧ 0 < s.md ∧
      (∀ v, s.mufd = some v → 0 < v) ∧ (∀ v, s.hmF2 = some v → 0 < v) := by
    intro s hs
    rw [List.mem_singleton] at hs
    subst hs
    refine ⟨by norm_num [stA], by norm_num [stA], by norm_num [stA], ?_, ?_⟩
    · intro v hv
      have h30 : some (30 : ℝ) = some v := hv
      injection h30 with h30
      rw [← h30]
      norm_num
    · intro v hv
      exact absurd hv (by simp [stA])
  have hpi_lo := Real.pi_gt_3141592
  have hpi_hi := Real.pi_lt_315
  have hD50 : ¬(6371 * (Real.pi / 18) < 50) := by nlinarith
  have hD3000 : 6371 * (Real.pi / 18) ≤ 3000 := by nlinarith
  have hw : ¬sumWeights [(stA, 6371 * (Real.pi / 18))] = 0 := by
    have hwp : 0 < wOf (stA, 6371 * (Real.pi / 18)) := wOf_pos _ (by norm_num [stA])
    unfold sumWeights
    simp only [List.map_cons, List.map_nil, List.sum_cons, List.sum_nil, add_zero]
    exact ne_of_gt hwp
  have hd : haversine_distance 0 0 stA.lat stA.lon = 6371 * (Real.pi / 18) :=
    hav_0_0_10_0
  have heq := interpolate_single 0 0 (6371 * (Real.pi / 18)) stA hd hD50 hD3000 hw
  have hc2 := C2_idw_per_field 0 0 [stA] hst 1 stA.name (6371 * (Real.pi / 18))
    _ _ _ _ heq
  refine ⟨hst, ?_⟩
  rw [heq, hc2.1, hc2.2.1, hc2.2.2.1, hc2.2.2.2]
  rfl

/-- No hour-scaling happens when the forecast hour is the current hour. -/
lemma hourIono_self (iono : Option IonoData) (h : ℝ) : hourIonoData iono h h = iono := by
  cases iono with
  | none => rfl
  | some d => simp [hourIonoData]

/-- The final clip is the identity on [0, 99]. -/
lemma clip99_eq (x : ℝ) (h0 : 0 ≤ x) (h99 : x ≤ 99) : clip99 x = x := by
  unfold clip99
  rw [max_eq_right h0, min_eq_right h99]

/-- The single-path and grid MUF computations agree for distances of at least
1 km when the ionosonde fields are positive where present. -/
lemma muf_agree (dist mlat mlon hour sfi ssn f0 md0 : ℝ) (m0 hm : Option ℝ)
    (hdist : 1 ≤ dist) (hf0 : 0 < f0) (hm0 : ∀ v, m0 = some v → 0 < v)
    (hmd : 0 < md0) :
    calculate_muf dist mlat mlon hour sfi ssn (some ⟨some f0, m0, hm, some md0⟩) =
    calculate_muf_vec dist mlat mlon hour sfi ssn f0 m0 md0 := by
  have hconv : ∀ m : ℝ,
      (if dist < 3000 then mufDistLow m dist else mufDistHigh m dist) =
      (if dist < 3000 then m * Real.sqrt (max dist 1 / 3000)
       else m * (1 + 0.15 * Real.logb 10 (max dist 3000 / 3000))) := by
    intro m
    by_cases h : dist < 3000
    · rw [if_pos h, if_pos h, max_eq_left hdist]
      rfl
    · rw [if_neg h, if_neg h, max_eq_left (not_lt.mp h)]
      rfl
  simp only [calculate_muf, calculate_muf_vec]
  cases m0 with
  | none =>
    simp only [truthy, Option.getD_some, if_neg hf0.ne', Bool.false_eq_true,
      if_false, if_true]
    rw [if_pos hf0, if_neg (mul_pos hf0 hmd).ne']
    exact hconv (f0 * md0)
  | some mv =>
    have hmv : 0 < mv := hm0 mv rfl
    simp only [truthy, Option.getD_some, if_neg hmv.ne', Bool.false_eq_true,
      if_false, if_true]
    rw [if_pos hmv]
    exact hconv mv

/-- Away from the band 0 < em−el ≤ 0.001, the two five-zone base formulas
coincide. -/
lemma zoneBase_eq (freq em el : ℝ) (h : em - el ≤ 0 ∨ 0.001 < em - el) :
    zoneBaseEnh freq em el = zoneBaseVec freq em el := by
  unfold zoneBaseEnh zoneBaseVec
  by_cases h1 : em * 1.1 < freq
  · rw [if_pos h1, if_pos h1]
  rw [if_neg h1, if_neg h1]
  by_cases h2 : em < freq
  · rw [if_pos h2, if_pos h2]
  rw [if_neg h2, if_neg h2]
  by_cases h3 : freq < el * 0.8
  · rw [if_pos h3, if_pos h3]
  rw [if_neg h3, if_neg h3]
  by_cases h4 : freq < el
  · rw [if_pos h4, if_pos h4]
  rw [if_neg h4, if_neg h4]
  unfold zone5 zone5vec
  rcases h with h | h
  · rw [if_pos h, if_pos (by linarith : em - el ≤ 0.001)]
  · rw [if_neg (by linarith : ¬em - el ≤ 0), if_neg (by linarith : ¬em - el ≤ 0.001),
      max_eq_right (by linarith : (0.001 : ℝ) ≤ em - el)]

/-- Inside the usable window both base formulas agree and land in [50, 95]. -/
lemma zoneBase_window (freq em el : ℝ) (h0 : 0 ≤ el) (h1 : freq ≤ em)
    (h2 : el ≤ freq) (h3 : 0.001 < em - el) :
    zoneBaseEnh freq em el = zoneBaseVec freq em el ∧
    50 ≤ zoneBaseEnh freq em el ∧ zoneBaseEnh freq em el ≤ 95 := by
  refine ⟨zoneBase_eq freq em el (Or.inr h3), ?_⟩
  unfold zoneBaseEnh
  rw [if_neg (by nlinarith : ¬em * 1.1 < freq), if_neg (by linarith : ¬em < freq),
    if_neg (by nlinarith : ¬freq < el * 0.8), if_neg (by linarith : ¬freq < el)]
  unfold zone5
  rw [if_neg (by linarith : ¬em - el ≤ 0)]
  have hp0 : 0 ≤ (freq - el) / (em - el) := div_nonneg (by linarith) (by linarith)
  have hp1 : (freq - el) / (em - el) ≤ 1 :=
    (div_le_one (by linarith)).mpr (by linarith)
  by_cases hp : (freq - el) / (em - el) < 0.75
  · rw [if_pos hp]
    have ha : 0 ≤ (freq - el) / (em - el) / 0.75 := div_nonneg hp0 (by norm_num)
    have hb : (freq - el) / (em - el) / 0.75 < 1 := by
      rw [div_lt_one (by norm_num : (0 : ℝ) < 0.75)]
      exact hp
    constructor <;> nlinarith
  · rw [if_neg hp]
    have hp2 := not_lt.mp hp
    have ha : 0 ≤ ((freq - el) / (em - el) - 0.75) / (1 - 0.75) :=
      div_nonneg (by linarith) (by norm_num)
    have hb : ((freq - el) / (em - el) - 0.75) / (1 - 0.75) ≤ 1 := by
      rw [div_le_one (by norm_num : (0 : ℝ) < 1 - 0.75)]
      linarith
    constructor <;> nlinarith

/-- Factoring the hop penalty of the single-path model. -/
lemma hop_mul (dist x : ℝ) :
    (if 1 < (⌈dist / 3500⌉ : ℤ) then x * (0.92 : ℝ) ^ ((⌈dist / 3500⌉ : ℤ) - 1).toNat
     else x) = x * stepHop dist := by
  unfold stepHop
  split_ifs with h
  · rfl
  · rw [mul_one]

/-- `calculate_enhanced_reliability` at forecast hour = current hour, for
frequencies above 3.5 MHz and sfi/freq outside the stacking solar-flux
penalties, factored into base × Kp × hop × high-lat × night factors. -/
lemma cer_shape (freq dist mlat mlon hour sfi ssn k margin : ℝ)
    (iono : Option IonoData)
    (hsfi : 150 ≤ sfi ∨ freq < 21) (hfreq : 3.5 < freq) :
    calculate_enhanced_reliability freq dist mlat mlon hour sfi ssn k iono hour margin =
    clip99 (zoneBaseEnh freq
        (calculate_muf dist mlat mlon hour sfi ssn iono * (1 + margin * 0.012))
        (calculate_luf dist mlat hour sfi k * max 0.1 (1 - margin * 0.008)) *
      kFactor k * stepHop dist *
      (if 60 < |mlat| then (if 3 ≤ k then 0.7 * 0.7 else (0.7 : ℝ)) else 1) *
      (if freq ≤ 7 ∧ (pyMod (hour + mlon / 15 + 24) 24 < 6 ∨
          18 < pyMod (hour + mlon / 15 + 24) 24) then (1.1 : ℝ) else 1)) := by
  have h4 : ¬(21 ≤ freq ∧ sfi < 100) := by
    intro hc
    rcases hsfi with hs | hs
    · linarith [hc.2]
    · linarith [hc.1]
  have h5 : ¬(28 ≤ freq ∧ sfi < 120) := by
    intro hc
    rcases hsfi with hs | hs
    · linarith [hc.2]
    · linarith [hc.1]
  have h6 : ¬(50 ≤ freq ∧ sfi < 150) := by
    intro hc
    rcases hsfi with hs | hs
    · linarith [hc.2]
    · linarith [hc.1]
  unfold calculate_enhanced_reliability
  rw [hourIono_self]
  dsimp only
  set P := pyMod (hour + mlon / 15 + 24) 24 with hP
  have hnofloor : ¬(freq ≤ 3.5 ∧ ¬(P < 6 ∨ 18 < P)) :=
    fun hc => absurd hc.1 (not_le.mpr hfreq)
  rw [if_neg hnofloor]
  simp only [if_neg h4, if_neg h5, if_neg h6, hop_mul]
  by_cases hla : 60 < |mlat|
  · by_cases hk3 : 3 ≤ k
    · simp only [if_pos hla, if_pos hk3]
      by_cases hn : freq ≤ 7 ∧ (P < 6 ∨ 18 < P)
      · simp only [if_pos hn]; try exact congrArg clip99 (by ring)
      · simp only [if_neg hn]; try exact congrArg clip99 (by ring)
    · simp only [if_pos hla, if_neg hk3]
      by_cases hn : freq ≤ 7 ∧ (P < 6 ∨ 18 < P)
      · simp only [if_pos hn]; try exact congrArg clip99 (by ring)
      · simp only [if_neg hn]; try exact congrArg clip99 (by ring)
  · simp only [if_neg hla]
    by_cases hn : freq ≤ 7 ∧ (P < 6 ∨ 18 < P)
    · simp only [if_pos hn]; try exact congrArg clip99 (by ring)
    · simp only [if_neg hn]; try exact congrArg clip99 (by ring)

/-- `calculate_reliability_vec` for frequencies above 3.5 MHz and sfi/freq
outside the solar-flux penalties, factored into base × Kp × hop × high-lat ×
night factors. -/
lemma crv_shape (freq dist mlat mlon hour sfi ssn k f0 md0 margin : ℝ)
    (m0 : Option ℝ)
    (hsfi : 150 ≤ sfi ∨ freq < 21) (hfreq : 3.5 < freq) :
    calculate_reliability_vec freq dist mlat mlon hour sfi ssn k f0 m0 md0 margin =
    clip99 (zoneBaseVec freq
        (calculate_muf_vec dist mlat mlon hour sfi ssn f0 m0 md0 * (1 + margin * 0.012))
        (calculate_luf_vec dist mlat hour sfi k * max 0.1 (1 - margin * 0.008)) *
      kFactor k * contHop dist *
      ((1 - min (max ((|mlat| - 60) / 20) 0) 1 * 0.6) *
        (if 3 ≤ k ∧ 60 < |mlat| then 1 - min (max ((|mlat| - 60) / 20) 0) 1 * 0.4
         else (1 : ℝ))) *
      (if freq ≤ 7 ∧ (pyMod (hour + mlon / 15 + 24) 24 < 6 ∨
          18 < pyMod (hour + mlon / 15 + 24) 24) then (1.1 : ℝ) else 1)) := by
  have h4 : ¬(21 ≤ freq ∧ sfi < 100) := by
    intro hc
    rcases hsfi with hs | hs
    · linarith [hc.2]
    · linarith [hc.1]
  have h5 : ¬(28 ≤ freq ∧ sfi < 120) := by
    intro hc
    rcases hsfi with hs | hs
    · linarith [hc.2]
    · linarith [hc.1]
  have h6 : ¬(50 ≤ freq ∧ sfi < 150) := by
    intro hc
    rcases hsfi with hs | hs
    · linarith [hc.2]
    · linarith [hc.1]
  unfold calculate_reliability_vec
  dsimp only
  set P := pyMod (hour + mlon / 15 + 24) 24 with hP
  rw [if_neg (not_le.mpr hfreq)]
  simp only [if_neg h4, if_neg h5, if_neg h6]
  by_cases hk3 : 3 ≤ k
  · by_cases hla : 60 < |mlat|
    · simp only [if_pos hk3, if_pos hla,
        if_pos (show 3 ≤ k ∧ 60 < |mlat| from ⟨hk3, hla⟩)]
      by_cases h7 : freq ≤ 7
      · by_cases hnight : P < 6 ∨ 18 < P
        · simp only [if_pos h7, if_pos hnight,
            if_pos (show freq ≤ 7 ∧ (P < 6 ∨ 18 < P) from ⟨h7, hnight⟩)]
          try exact congrArg clip99 (by ring)
        · simp only [if_pos h7, if_neg hnight,
            if_neg (show ¬(freq ≤ 7 ∧ (P < 6 ∨ 18 < P)) from fun hc => hnight hc.2)]
          try exact congrArg clip99 (by ring)
      · simp only [if_neg h7,
          if_neg (show ¬(freq ≤ 7 ∧ (P < 6 ∨ 18 < P)) from fun hc => h7 hc.1)]
        try exact congrArg clip99 (by ring)
    · simp only [if_pos hk3, if_neg hla,
        if_neg (show ¬(3 ≤ k ∧ 60 < |mlat|) from fun hc => hla hc.2)]
      by_cases h7 : freq ≤ 7
      · by_cases hnight : P < 6 ∨ 18 < P
        · simp only [if_pos h7, if_pos hnight,
            if_pos (show freq ≤ 7 ∧ (P < 6 ∨ 18 < P) from ⟨h7, hnight⟩)]
          try exact congrArg clip99 (by ring)
        · simp only [if_pos h7, if_neg hnight,
            if_neg (show ¬(freq ≤ 7 ∧ (P < 6 ∨ 18 < P)) from fun hc => hnight hc.2)]
          try exact congrArg clip99 (by ring)
      · simp only [if_neg h7,
          if_neg (show ¬(freq ≤ 7 ∧ (P < 6 ∨ 18 < P)) from fun hc => h7 hc.1)]
        try exact congrArg clip99 (by ring)
  · simp only [if_neg hk3,
      if_neg (show ¬(3 ≤ k ∧ 60 < |mlat|) from fun hc => hk3 hc.1)]
    by_cases h7 : freq ≤ 7
    · by_cases hnight : P < 6 ∨ 18 < P
      · simp only [if_pos h7, if_pos hnight,
          if_pos (show freq ≤ 7 ∧ (P < 6 ∨ 18 < P) from ⟨h7, hnight⟩)]
        try exact congrArg clip99 (by ring)
      · simp only [if_pos h7, if_neg hnight,
          if_neg (show ¬(freq ≤ 7 ∧ (P < 6 ∨ 18 < P)) from fun hc => hnight hc.2)]
        try exact congrArg clip99 (by ring)
    · simp only [if_neg h7,
        if_neg (show ¬(freq ≤ 7 ∧ (P < 6 ∨ 18 < P)) from fun hc => h7 hc.1)]
      exact congrArg clip99 (by ring)

/-- Numeric bounds for sqrt 150. -/
lemma sqrt150_bounds : 12 ≤ Real.sqrt 150 ∧ Real.sqrt 150 ≤ 12.25 := by
  have h1 : Real.sqrt 150 ^ 2 = 150 := Real.sq_sqrt (by norm_num)
  have h2 := Real.sqrt_nonneg (150 : ℝ)
  constructor <;> nlinarith

/-- `calculate_luf` at dist 4000 km, hour 12, sfi 150, k 0. -/
lemma luf_4000 (mlat : ℝ) : calculate_luf 4000 mlat 12 150 0 = Real.sqrt 150 * 0.4 := by
  unfold calculate_luf
  dsimp only
  rw [show |(12 : ℝ) - 12| * 15 = 0 by norm_num,
    show radians 0 = 0 by simp [radians], Real.cos_zero,
    max_eq_right (by norm_num : (0.1 : ℝ) ≤ 1), Real.sqrt_one,
    show (4000 : ℝ) / 1000 = 4 by norm_num,
    show Real.sqrt 4 = 2 by
      rw [show (4 : ℝ) = 2 ^ 2 by norm_num]
      exact Real.sqrt_sq (by norm_num),
    if_neg (by norm_num : ¬((12 : ℝ) < 6 ∨ (18 : ℝ) < 12))]
  rw [max_eq_right (by nlinarith [sqrt150_bounds.1])]
  ring

/-- `calculate_muf` at dist 4000 km with a truthy mufd of 30. -/
lemma muf_4000 (mlat mlon : ℝ) :
    calculate_muf 4000 mlat mlon 12 150 100 (some ⟨some 10, some 30, none, some 3⟩) =
    30 * (1 + 0.15 * Real.logb 10 (4000 / 3000)) := by
  simp only [calculate_muf, truthy]
  rw [if_neg (by norm_num : ¬(30 : ℝ) = 0)]
  simp only [if_true]
  rw [if_neg (by norm_num : ¬(30 : ℝ) = 0), if_neg (by norm_num : ¬(4000 : ℝ) < 3000)]
  rfl

/-- The hop factors agree at dist = 4000 (both are 0.92). -/
lemma stepHop_4000 : stepHop 4000 = 0.92 := by
  unfold stepHop
  have hc : (⌈(4000 : ℝ) / 3500⌉ : ℤ) = 2 := by
    rw [Int.ceil_eq_iff]
    constructor
    · push_cast
      norm_num
    · push_cast
      norm_num
  rw [hc, if_pos (by norm_num : (1 : ℤ) < 2)]
  norm_num

/-- The continuous hop factor at dist = 4000 is also 0.92. -/
lemma contHop_4000 : contHop 4000 = 0.92 := by
  unfold contHop
  rw [show ((4000 : ℝ) - 500) / 3500 = 1 by norm_num,
    max_eq_right (by norm_num : (0 : ℝ) ≤ 1), Real.rpow_one]

/-- C8 counterexample: at freq 14 MHz, dist 4000 km, mid-latitude 80°, hour =
current hour 12, sfi 150, k 0, margin 0 and identical ionosonde data
(mufd 30), the hop factors of the two models are EQUAL (both 0.92), yet the
two reliabilities differ: the single-path model applies the step high-latitude
penalty 0.7 while the grid model applies its smooth 60°→80° gradient 0.4 — a
divergence outside the hop-penalty treatment. -/
theorem C8_counterexample :
    calculate_enhanced_reliability 14 4000 80 0 12 150 100 0
      (some ⟨some 10, some 30, none, some 3⟩) 12 0 ≠
    calculate_reliability_vec 14 4000 80 0 12 150 100 0 10 (some 30) 3 0 := by
  have hE := cer_shape 14 4000 80 0 12 150 100 0 0
    (some ⟨some 10, some 30, none, some 3⟩) (Or.inl (by norm_num)) (by norm_num)
  have hV := crv_shape 14 4000 80 0 12 150 100 0 10 3 0 (some 30)
    (Or.inl (by norm_num)) (by norm_num)
  have hmagree := muf_agree 4000 80 0 12 150 100 10 3 (some 30) none
    (by norm_num) (by norm_num)
    (fun v hv => Option.some.inj hv ▸ (by norm_num : (0 : ℝ) < 30)) (by norm_num)
  have hlufv : calculate_luf_vec 4000 80 12 150 0 = calculate_luf 4000 80 12 150 0 := rfl
  rw [hE, hV, hlufv, ← hmagree]
  simp only [show (1 : ℝ) + 0 * 0.012 = 1 by norm_num,
    show max (0.1 : ℝ) (1 - 0 * 0.008) = 1 by
      rw [show (1 : ℝ) - 0 * 0.008 = 1 by norm_num]
      exact max_eq_right (by norm_num), mul_one]
  rw [muf_4000 80 0, luf_4000 80]
  have hlog0 : 0 ≤ Real.logb 10 ((4000 : ℝ) / 3000) :=
    Real.logb_nonneg (by norm_num) (by norm_num)
  have hs150 := sqrt150_bounds
  obtain ⟨hzeq, hz50, hz95⟩ := zoneBase_window 14
    (30 * (1 + 0.15 * Real.logb 10 (4000 / 3000))) (Real.sqrt 150 * 0.4)
    (by nlinarith) (by nlinarith) (by nlinarith) (by nlinarith)
  rw [← hzeq]
  have habs : |(80 : ℝ)| = 80 := abs_of_pos (by norm_num)
  rw [habs]
  rw [if_pos (by norm_num : (60 : ℝ) < 80), if_neg (by norm_num : ¬(3 : ℝ) ≤ 0)]
  rw [show min (max (((80 : ℝ) - 60) / 20) 0) 1 = 1 by
    rw [show ((80 : ℝ) - 60) / 20 = 1 by norm_num, max_eq_left (by norm_num), min_self]]
  rw [if_neg (show ¬((3 : ℝ) ≤ 0 ∧ (60 : ℝ) < 80) from fun hc => absurd hc.1 (by norm_num))]
  have hnf : ¬((14 : ℝ) ≤ 7 ∧ (pyMod (12 + 0 / 15 + 24) 24 < 6 ∨
      18 < pyMod (12 + 0 / 15 + 24) 24)) := fun hc => absurd hc.1 (by norm_num)
  rw [if_neg hnf]
  set B := zoneBaseEnh 14 (30 * (1 + 0.15 * Real.logb 10 (4000 / 3000)))
    (Real.sqrt 150 * 0.4) with hB
  have e1 : B * kFactor 0 * stepHop 4000 * 0.7 * 1 = B * 0.644 := by
    rw [stepHop_4000, show kFactor 0 = 1 by norm_num [kFactor]]
    ring
  have e2 : B * kFactor 0 * contHop 4000 * ((1 - 1 * 0.6) * 1) * 1 = B * 0.368 := by
    rw [contHop_4000, show kFactor 0 = 1 by norm_num [kFactor]]
    ring
  rw [e1, e2, clip99_eq _ (by nlinarith) (by nlinarith),
    clip99_eq _ (by nlinarith) (by nlinarith)]
  have hgt : B * 0.368 < B * 0.644 := by nlinarith
  exact ne_of_gt hgt

/-- C8 amended: on identical scalar inputs (forecast hour equal to the current
hour, distance at least 1 km, positive ionosonde fields), and away from the
code paths where the two models also differ — mid-latitudes at most 60° (the
grid model smooths the high-latitude penalty over 60°–80° instead of the step
×0.7), solar flux at least 150 or frequency below 21 MHz (the grid model makes
the solar-flux penalties mutually exclusive where the single-path model stacks
them), frequency above 3.5 MHz (the grid model drops the nighttime ×1.1 boost
on 80 m), and MUF−LUF margin not in (0, 0.001] (different degenerate-window
cutoffs) — the two reliability functions compute the same value up to the
hop-penalty treatment: a common factor C multiplied by the step penalty
0.92^(ceil(dist/3500)−1) in the single-path model and by the continuous
penalty 0.92^max(0,(dist−500)/3500) in the grid model. -/
theorem C8_amended (freq dist mlat mlon hour sfi ssn k f0 md0 margin : ℝ)
    (m0 hm2 : Option ℝ)
    (hdist : 1 ≤ dist) (hf0 : 0 < f0) (hm0 : ∀ v, m0 = some v → 0 < v)
    (hmd0 : 0 < md0) (hlat : |mlat| ≤ 60) (hsfi : 150 ≤ sfi ∨ freq < 21)
    (hfreq : 3.5 < freq)
    (hdeg :
      calculate_muf dist mlat mlon hour sfi ssn (some ⟨some f0, m0, hm2, some md0⟩) *
          (1 + margin * 0.012) -
        calculate_luf dist mlat hour sfi k * max 0.1 (1 - margin * 0.008) ≤ 0 ∨
      0.001 <
        calculate_muf dist mlat mlon hour sfi ssn (some ⟨some f0, m0, hm2, some md0⟩) *
          (1 + margin * 0.012) -
        calculate_luf dist mlat hour sfi k * max 0.1 (1 - margin * 0.008)) :
    ∃ C : ℝ,
      calculate_enhanced_reliability freq dist mlat mlon hour sfi ssn k
          (some ⟨some f0, m0, hm2, some md0⟩) hour margin =
        clip99 (C * stepHop dist) ∧
      calculate_reliability_vec freq dist mlat mlon hour sfi ssn k f0 m0 md0 margin =
        clip99 (C * contHop dist) := by
  have hmufeq := muf_agree dist mlat mlon hour sfi ssn f0 md0 m0 hm2 hdist hf0 hm0 hmd0
  have hlufeq : calculate_luf_vec dist mlat hour sfi k =
    calculate_luf dist mlat hour sfi k := rfl
  have hzone := zoneBase_eq freq
    (calculate_muf dist mlat mlon hour sfi ssn (some ⟨some f0, m0, hm2, some md0⟩) *
      (1 + margin * 0.012))
    (calculate_luf dist mlat hour sfi k * max 0.1 (1 - margin * 0.008)) hdeg
  have hlp : min (max ((|mlat| - 60) / 20) 0) 1 = 0 := by
    rw [max_eq_right (div_nonpos_of_nonpos_of_nonneg (by linarith) (by norm_num))]
    exact min_eq_left (by norm_num)
  refine ⟨zoneBaseEnh freq
      (calculate_muf dist mlat mlon hour sfi ssn (some ⟨some f0, m0, hm2, some md0⟩) *
        (1 + margin * 0.012))
      (calculate_luf dist mlat hour sfi k * max 0.1 (1 - margin * 0.008)) *
    kFactor k *
    (if freq ≤ 7 ∧ (pyMod (hour + mlon / 15 + 24) 24 < 6 ∨
        18 < pyMod (hour + mlon / 15 + 24) 24) then (1.1 : ℝ) else 1), ?_, ?_⟩
  · rw [cer_shape freq dist mlat mlon hour sfi ssn k margin _ hsfi hfreq]
    rw [if_neg (not_lt.mpr hlat)]
    exact congrArg clip99 (by ring)
  · rw [crv_shape freq dist mlat mlon hour sfi ssn k f0 md0 margin m0 hsfi hfreq]
    rw [hlufeq, ← hmufeq, ← hzone, hlp]
    rw [if_neg (show ¬(3 ≤ k ∧ 60 < |mlat|) from fun hc => absurd hc.2 (not_lt.mpr hlat))]
    exact congrArg clip99 (by ring)

/-- Witness for C8 amended at freq 14, dist 4000, mid-latitude 0, hour 12,
sfi 150, k 0, mufd 30, margin 0. -/
theorem C8_amended_witness :
    (1 : ℝ) ≤ 4000 ∧ (0 : ℝ) < 10 ∧ (0 : ℝ) < 3 ∧ |(0 : ℝ)| ≤ 60 ∧
    (150 : ℝ) ≤ 150 ∧ (3.5 : ℝ) < 14 ∧
    (0.001 <
      calculate_muf 4000 0 0 12 150 100 (some ⟨some 10, some 30, none, some 3⟩) *
        (1 + 0 * 0.012) -
      calculate_luf 4000 0 12 150 0 * max 0.1 (1 - 0 * 0.008)) ∧
    (∃ C : ℝ,
      calculate_enhanced_reliability 14 4000 0 0 12 150 100 0
          (some ⟨some 10, some 30, none, some 3⟩) 12 0 =
        clip99 (C * stepHop 4000) ∧
      calculate_reliability_vec 14 4000 0 0 12 150 100 0 10 (some 30) 3 0 =
        clip99 (C * contHop 4000)) := by
  have hlog0 : 0 ≤ Real.logb 10 ((4000 : ℝ) / 3000) :=
    Real.logb_nonneg (by norm_num) (by norm_num)
  have hs150 := sqrt150_bounds
  have hdeg : 0.001 <
      calculate_muf 4000 0 0 12 150 100 (some ⟨some 10, some 30, none, some 3⟩) *
        (1 + 0 * 0.012) -
      calculate_luf 4000 0 12 150 0 * max 0.1 (1 - 0 * 0.008) := by
    rw [muf_4000 0 0, luf_4000 0,
      show max (0.1 : ℝ) (1 - 0 * 0.008) = 1 by
        rw [show (1 : ℝ) - 0 * 0.008 = 1 by norm_num]
        exact max_eq_right (by norm_num)]
    nlinarith
  refine ⟨by norm_num, by norm_num, by norm_num, by norm_num, by norm_num,
    by norm_num, hdeg, ?_⟩
  exact C8_amended 14 4000 0 0 12 150 100 0 10 3 0 (some 30) none
    (by norm_num) (by norm_num)
    (fun v hv => Option.some.inj hv ▸ (by norm_num : (0 : ℝ) < 30)) (by norm_num)
    (by norm_num) (Or.inl (by norm_num)) (by norm_num) (Or.inr hdeg)

/-- The antipodal-equator distance: (0°,0°) to (0°,180°) is 6371·π km. -/
lemma hav_0_0_0_180 : haversine_distance 0 0 0 180 = 6371 * Real.pi := by
  simp only [haversine_distance, radians]
  have ha : Real.sin ((0 - 0) * (Real.pi / 180) / 2) ^ 2 +
      Real.cos (0 * (Real.pi / 180)) * Real.cos (0 * (Real.pi / 180)) *
        Real.sin ((180 - 0) * (Real.pi / 180) / 2) ^ 2 = 1 := by
    have e1 : ((0 : ℝ) - 0) * (Real.pi / 180) / 2 = 0 := by ring
    have e2 : (0 : ℝ) * (Real.pi / 180) = 0 := by ring
    have e3 : ((180 : ℝ) - 0) * (Real.pi / 180) / 2 = Real.pi / 2 := by ring
    rw [e1, e2, e3, Real.sin_zero, Real.cos_zero, Real.sin_pi_div_two]
    ring
  rw [ha, Real.sqrt_one, show (1 : ℝ) - 1 = 0 by ring, Real.sqrt_zero,
    show atan2 1 0 = Real.pi / 2 from by unfold atan2; norm_num]
  ring

/-- The coincident-point distance at (0°, 90°E) is 0. -/
lemma hav_0_90_0_90 : haversine_distance 0 90 0 90 = 0 := by
  simp only [haversine_distance, radians]
  have ha : Real.sin ((0 - 0) * (Real.pi / 180) / 2) ^ 2 +
      Real.cos (0 * (Real.pi / 180)) * Real.cos (0 * (Real.pi / 180)) *
        Real.sin ((90 - 90) * (Real.pi / 180) / 2) ^ 2 = 0 := by
    have e1 : ((0 : ℝ) - 0) * (Real.pi / 180) / 2 = 0 := by ring
    have e2 : ((90 : ℝ) - 90) * (Real.pi / 180) / 2 = 0 := by ring
    rw [e1, e2, Real.sin_zero]
    ring
  rw [ha, Real.sqrt_zero, show (1 : ℝ) - 0 = 1 by ring, Real.sqrt_one,
    show atan2 0 1 = 0 from by
      unfold atan2
      rw [if_pos (by norm_num : (0 : ℝ) < 1)]
      simp]
  ring

/-- At (0°, 90°E) the single station st90 resolves by the direct method. -/
lemma interp_direct_st90 :
    interpolate_fof2 0 90 [st90] = some (.direct 10 (some 30) none 3 "A" 0) := by
  have hwd : withDist 0 90 [st90] = [(st90, 0)] := by
    unfold withDist
    rw [List.map_cons, List.map_nil,
      show haversine_distance 0 90 st90.lat st90.lon = 0 from hav_0_90_0_90]
  unfold interpolate_fof2 neighborsOf
  rw [hwd, show sortByDist [(st90, (0 : ℝ))] = [(st90, 0)] from rfl,
    show List.filter (fun p => decide (p.2 ≤ 3000)) [(st90, (0 : ℝ))] = [(st90, 0)]
      from by simp,
    show List.take 5 [(st90, (0 : ℝ))] = [(st90, 0)] from rfl]
  simp only [interpGo]
  rw [if_neg (by norm_num : ¬(3000 : ℝ) < 0), if_pos (by norm_num : (0 : ℝ) < 50)]
  rfl

/-- 100 W SSB has zero signal margin. -/
lemma margin_ssb_100 : calculate_signal_margin "SSB" 100 = 0 := by
  unfold calculate_signal_margin
  rw [show MODE_ADVANTAGE "SSB" = 0 from rfl,
    show max (0.01 : ℝ) 100 = 100 from max_eq_right (by norm_num),
    show (100 : ℝ) / 100 = 1 by norm_num, Real.logb_one]
  ring

/-- The reliability the C5 request computes for 28 MHz at hour 12 reduces to
one `calculate_enhanced_reliability` call on the antipodal equator path. -/
lemma relC5_eq : calculate_point_reliability envC5 reqC5 12 28 =
    calculate_enhanced_reliability 28 (6371 * Real.pi) 0 90 12 150 100 3
      (some ⟨some 10, some 30, none, some 3⟩) 12 0 / 100 := by
  unfold calculate_point_reliability
  dsimp only [envC5, reqC5]
  rw [cpp_snd]
  have habs180 : |(0 : ℝ) - 180| = 180 := by
    rw [show (0 : ℝ) - 180 = -(180 : ℝ) by norm_num, abs_neg,
      abs_of_pos (by norm_num : (0 : ℝ) < 180)]
  rw [if_neg (show ¬(180 : ℝ) < |(0 : ℝ) - 180| from by rw [habs180]; norm_num)]
  rw [show ((0 : ℝ) + 0) / 2 = 0 by norm_num, show ((0 : ℝ) + 180) / 2 = 90 by norm_num,
    hav_0_0_0_180, interp_direct_st90, margin_ssb_100]
  rfl

/-- Numeric bounds for sqrt(6371·π/1000). -/
lemma sqrtD1000_bounds : 4.4 ≤ Real.sqrt (6371 * Real.pi / 1000) ∧
    Real.sqrt (6371 * Real.pi / 1000) ≤ 4.49 := by
  have harg1 : (19.36 : ℝ) ≤ 6371 * Real.pi / 1000 := by nlinarith [Real.pi_gt_3141592]
  have harg2 : 6371 * Real.pi / 1000 ≤ 20.1601 := by nlinarith [Real.pi_lt_315]
  have h1 : Real.sqrt (6371 * Real.pi / 1000) ^ 2 = 6371 * Real.pi / 1000 :=
    Real.sq_sqrt (by nlinarith [Real.pi_pos])
  have h2 := Real.sqrt_nonneg (6371 * Real.pi / 1000)
  constructor <;> nlinarith

/-- `calculate_luf` on the antipodal equator path at hour 12, sfi 150, k 3. -/
lemma luf_D : calculate_luf (6371 * Real.pi) 0 12 150 3 =
    Real.sqrt (6371 * Real.pi / 1000) * Real.sqrt 150 * 0.26 := by
  unfold calculate_luf
  dsimp only
  rw [show |(12 : ℝ) - 12| * 15 = 0 by norm_num,
    show radians 0 = 0 by simp [radians], Real.cos_zero,
    max_eq_right (by norm_num : (0.1 : ℝ) ≤ 1), Real.sqrt_one,
    if_neg (by norm_num : ¬((12 : ℝ) < 6 ∨ (18 : ℝ) < 12))]
  rw [max_eq_right (by nlinarith [sqrtD1000_bounds.1, sqrt150_bounds.1])]
  ring

/-- `calculate_muf` on the antipodal equator path with a truthy mufd of 30. -/
lemma muf_D : calculate_muf (6371 * Real.pi) 0 90 12 150 100
    (some ⟨some 10, some 30, none, some 3⟩) =
    30 * (1 + 0.15 * Real.logb 10 (6371 * Real.pi / 3000)) := by
  simp only [calculate_muf, truthy]
  rw [if_neg (by norm_num : ¬(30 : ℝ) = 0)]
  simp only [if_true]
  rw [if_neg (by norm_num : ¬(30 : ℝ) = 0),
    if_neg (show ¬6371 * Real.pi < 3000 by nlinarith [Real.pi_gt_3141592])]
  rfl

/-- The step hop factor on the antipodal equator path: 6 hops, 0.92^5. -/
lemma stepHop_D : stepHop (6371 * Real.pi) = (0.92 : ℝ) ^ (5 : ℕ) := by
  unfold stepHop
  have hc : (⌈6371 * Real.pi / 3500⌉ : ℤ) = 6 := by
    rw [Int.ceil_eq_iff]
    constructor
    · push_cast
      nlinarith [Real.pi_gt_3141592]
    · push_cast
      nlinarith [Real.pi_lt_315]
  rw [hc, if_pos (by norm_num : (1 : ℤ) < 6),
    show ((6 : ℤ) - 1).toNat = 5 from rfl]

/-- The 28 MHz reliability of the C5 scenario is between 26 and 99. -/
lemma relD_bounds :
    26 ≤ calculate_enhanced_reliability 28 (6371 * Real.pi) 0 90 12 150 100 3
      (some ⟨some 10, some 30, none, some 3⟩) 12 0 ∧
    calculate_enhanced_reliability 28 (6371 * Real.pi) 0 90 12 150 100 3
      (some ⟨some 10, some 30, none, some 3⟩) 12 0 ≤ 99 := by
  refine ⟨?_, (cer_mem 28 (6371 * Real.pi) 0 90 12 150 100 3
    (some ⟨some 10, some 30, none, some 3⟩) 12 0).2⟩
  rw [cer_shape 28 (6371 * Real.pi) 0 90 12 150 100 3 0
    (some ⟨some 10, some 30, none, some 3⟩) (Or.inl (by norm_num)) (by norm_num)]
  simp only [show (1 : ℝ) + 0 * 0.012 = 1 by norm_num,
    show max (0.1 : ℝ) (1 - 0 * 0.008) = 1 by
      rw [show (1 : ℝ) - 0 * 0.008 = 1 by norm_num]
      exact max_eq_right (by norm_num), mul_one]
  rw [muf_D, luf_D, stepHop_D, show kFactor 3 = 0.8 by norm_num [kFactor]]
  rw [if_neg (show ¬(60 : ℝ) < |(0 : ℝ)| from by rw [abs_zero]; norm_num)]
  rw [if_neg (show ¬((28 : ℝ) ≤ 7 ∧ (pyMod (12 + 90 / 15 + 24) 24 < 6 ∨
      18 < pyMod (12 + 90 / 15 + 24) 24)) from fun hc => absurd hc.1 (by norm_num))]
  have hlogD : 0 ≤ Real.logb 10 (6371 * Real.pi / 3000) :=
    Real.logb_nonneg (by norm_num) (by nlinarith [Real.pi_gt_3141592])
  have hsD := sqrtD1000_bounds
  have hs150 := sqrt150_bounds
  have hpow : (0.92 : ℝ) ^ (5 : ℕ) = 0.6590815232 := by norm_num
  obtain ⟨hzeq, hz50, hz95⟩ := zoneBase_window 28
    (30 * (1 + 0.15 * Real.logb 10 (6371 * Real.pi / 3000)))
    (Real.sqrt (6371 * Real.pi / 1000) * Real.sqrt 150 * 0.26)
    (by nlinarith) (by nlinarith) (by nlinarith) (by nlinarith)
  rw [clip99_eq _ (by nlinarith) (by nlinarith)]
  nlinarith

/-- C5 counterexample: for the concrete request TX (0°,0°) → RX (0°,180°) at
100 W SSB with one ionosonde station (mufd 30) and kp 3, the hour-12 forecast
line's 9th value is the computed 28 MHz reliability (0.26 or larger, so at
least 26 hundredths when rendered with two decimals) — not a 0.00
placeholder. -/
theorem C5_counterexample :
    (((band_forecast_lines envC5 reqC5).getD 11 (0, [])).2).getD 8 0 ≠ 0 := by
  have hline : (((band_forecast_lines envC5 reqC5).getD 11 (0, [])).2).getD 8 0 =
      fmt2 (calculate_point_reliability envC5 reqC5 ((12 : ℕ) : ℝ) 28) := rfl
  rw [hline, show ((12 : ℕ) : ℝ) = (12 : ℝ) by norm_num]
  have h1 : (1 : ℤ) ≤ fmt2 (calculate_point_reliability envC5 reqC5 12 28) := by
    unfold fmt2
    rw [Int.le_floor]
    push_cast
    rw [relC5_eq, div_mul_cancel₀ _ (by norm_num : (100 : ℝ) ≠ 0)]
    linarith [relD_bounds.1]
  omega

/-- C5 amended: lines 3-26 of the band service's forecast do run through the
hours 1, 2, ..., 23, then 0, and each line carries 9 two-decimal values — but
all nine are computed band reliabilities for the bands 3.5...28 MHz, so the
9th value is the 28 MHz reliability, not an appended 0.00 placeholder; only
the standalone dvoacap script builds its rows as 8 band values plus a
trailing 0.00 placeholder. -/
theorem C5_amended :
    (∀ (e : BandEnv) (q : BandReq),
      (band_forecast_lines e q).map Prod.fst = List.range' 1 23 ++ [0]) ∧
    (∀ (e : BandEnv) (q : BandReq), ∀ p ∈ band_forecast_lines e q,
      p.2.length = 9 ∧
      p.2.getD 8 0 = fmt2 (calculate_point_reliability e q (p.1 : ℝ) 28)) ∧
    (∀ row : List ℝ, row.length = 8 → scriptRow row = row ++ [0]) := by
  refine ⟨?_, ?_, ?_⟩
  · intro e q
    unfold band_forecast_lines
    rw [List.map_append, List.map_map]
    congr 1
  · intro e q p hp
    unfold band_forecast_lines at hp
    rcases List.mem_append.mp hp with hp | hp
    · obtain ⟨h, hh, rfl⟩ := List.mem_map.mp hp
      exact ⟨rfl, rfl⟩
    · rw [List.mem_singleton] at hp
      subst hp
      refine ⟨rfl, ?_⟩
      rw [show (((0 : ℕ) : ℝ)) = (0 : ℝ) by norm_num]
      rfl
  · intro row hl
    unfold scriptRow
    rw [hl]
    simp

/-- Witness for C5 amended: the first forecast line of the concrete scenario
and a concrete 8-value script row. -/
theorem C5_amended_witness :
    ((band_forecast_lines envC5 reqC5).getD 0 (0, []) ∈ band_forecast_lines envC5 reqC5) ∧
    (((band_forecast_lines envC5 reqC5).getD 0 (0, [])).2.length = 9 ∧
      ((band_forecast_lines envC5 reqC5).getD 0 (0, [])).2.getD 8 0 =
        fmt2 (calculate_point_reliability envC5 reqC5
          ((((band_forecast_lines envC5 reqC5).getD 0 (0, [])).1 : ℕ) : ℝ) 28)) ∧
    ([1, 2, 3, 4, 5, 6, 7, 8] : List ℝ).length = 8 ∧
    scriptRow [1, 2, 3, 4, 5, 6, 7, 8] = [1, 2, 3, 4, 5, 6, 7, 8] ++ [0] := by
  have hlen : 0 < (band_forecast_lines envC5 reqC5).length := by
    rw [show (band_forecast_lines envC5 reqC5).length = 24 from rfl]
    norm_num
  have hmem : (band_forecast_lines envC5 reqC5).getD 0 (0, []) ∈
      band_forecast_lines envC5 reqC5 := by
    rw [List.getD_eq_getElem _ _ hlen]
    exact List.getElem_mem _
  exact ⟨hmem, C5_amended.2.1 envC5 reqC5 _ hmem, by norm_num,
    C5_amended.2.2 _ (by norm_num)⟩

end OHB
